import Mathlib

/-!
Verification development for `ndo_epg_migration.py` (the `-p`/put branch of
`main`, the request helpers, and the deployment status loop).

The Python program is shallowly embedded:
* Python values that flow through the migration dictionaries are modelled by
  the inductive `Val` (None, bool, str, list, dict).
* Python `dict`s are modelled as insertion-ordered association lists
  (`Dict`); assignment to an existing key updates it in place, assignment to
  a new key appends, matching CPython semantics.
* Python exceptions are modelled by `PyErr` and `Except`.
* The remote NDO API is modelled by an environment `Env` that decides, per
  remote call, whether the HTTP request succeeds; the `request_logger`
  decorator's behaviour (catching `RequestException` and returning `None`)
  is part of the orchestrator model.
* URL construction inside the request helpers (string splitting of the
  reference paths) only affects the request URL, never the decision logic
  of the orchestrator, and is elided; the emitted `Ev` events record the
  operation, the reference and the payload of each call.
-/

namespace NdoEpgMigration

/-- A Python value as it appears in the migration dictionaries. -/
inductive Val where
  | vnone  : Val
  | vbool  : Bool → Val
  | vstr   : String → Val
  | vlist  : List Val → Val
  | vdict  : List (String × Val) → Val

mutual

/-- Boolean equality on `Val` (Python `==` restricted to the shapes above). -/
def Val.beq : Val → Val → Bool
  | .vnone, .vnone => true
  | .vbool a, .vbool b => a == b
  | .vstr a, .vstr b => a == b
  | .vlist a, .vlist b => Val.beqList a b
  | .vdict a, .vdict b => Val.beqDict a b
  | _, _ => false

/-- Elementwise equality of `Val` lists. -/
def Val.beqList : List Val → List Val → Bool
  | [], [] => true
  | a :: as, b :: bs => Val.beq a b && Val.beqList as bs
  | _, _ => false

/-- Entrywise equality of `(String × Val)` lists. -/
def Val.beqDict : List (String × Val) → List (String × Val) → Bool
  | [], [] => true
  | (k, a) :: as, (k2, b) :: bs => k == k2 && Val.beq a b && Val.beqDict as bs
  | _, _ => false

end

mutual

theorem Val.beq_refl : ∀ a : Val, Val.beq a a = true
  | .vnone => rfl
  | .vbool a => by simp [Val.beq]
  | .vstr a => by simp [Val.beq]
  | .vlist l => by simp [Val.beq, Val.beqList_refl l]
  | .vdict d => by simp [Val.beq, Val.beqDict_refl d]

theorem Val.beqList_refl : ∀ l : List Val, Val.beqList l l = true
  | [] => rfl
  | a :: as => by simp [Val.beqList, Val.beq_refl a, Val.beqList_refl as]

theorem Val.beqDict_refl : ∀ d : List (String × Val), Val.beqDict d d = true
  | [] => rfl
  | (k, a) :: as => by simp [Val.beqDict, Val.beq_refl a, Val.beqDict_refl as]

end

mutual

theorem Val.eq_of_beq : ∀ {a b : Val}, Val.beq a b = true → a = b
  | .vnone, .vnone, _ => rfl
  | .vbool a, .vbool b, h => by simpa [Val.beq] using h
  | .vstr a, .vstr b, h => by simpa [Val.beq] using h
  | .vlist a, .vlist b, h => by
      simpa [Val.beq] using Val.eqList_of_beq (a := a) (b := b) (by simpa [Val.beq] using h)
  | .vdict a, .vdict b, h => by
      simpa [Val.beq] using Val.eqDict_of_beq (a := a) (b := b) (by simpa [Val.beq] using h)
  | .vnone, .vbool _, h => by simp [Val.beq] at h
  | .vnone, .vstr _, h => by simp [Val.beq] at h
  | .vnone, .vlist _, h => by simp [Val.beq] at h
  | .vnone, .vdict _, h => by simp [Val.beq] at h
  | .vbool _, .vnone, h => by simp [Val.beq] at h
  | .vbool _, .vstr _, h => by simp [Val.beq] at h
  | .vbool _, .vlist _, h => by simp [Val.beq] at h
  | .vbool _, .vdict _, h => by simp [Val.beq] at h
  | .vstr _, .vnone, h => by simp [Val.beq] at h
  | .vstr _, .vbool _, h => by simp [Val.beq] at h
  | .vstr _, .vlist _, h => by simp [Val.beq] at h
  | .vstr _, .vdict _, h => by simp [Val.beq] at h
  | .vlist _, .vnone, h => by simp [Val.beq] at h
  | .vlist _, .vbool _, h => by simp [Val.beq] at h
  | .vlist _, .vstr _, h => by simp [Val.beq] at h
  | .vlist _, .vdict _, h => by simp [Val.beq] at h
  | .vdict _, .vnone, h => by simp [Val.beq] at h
  | .vdict _, .vbool _, h => by simp [Val.beq] at h
  | .vdict _, .vstr _, h => by simp [Val.beq] at h
  | .vdict _, .vlist _, h => by simp [Val.beq] at h

theorem Val.eqList_of_beq : ∀ {a b : List Val}, Val.beqList a b = true → a = b
  | [], [], _ => rfl
  | [], _ :: _, h => by simp [Val.beqList] at h
  | _ :: _, [], h => by simp [Val.beqList] at h
  | a :: as, b :: bs, h => by
      have h1 : Val.beq a b = true := by
        have := h; simp [Val.beqList, Bool.and_eq_true] at this; exact this.1
      have h2 : Val.beqList as bs = true := by
        have := h; simp [Val.beqList, Bool.and_eq_true] at this; exact this.2
      rw [Val.eq_of_beq h1, Val.eqList_of_beq h2]

theorem Val.eqDict_of_beq : ∀ {a b : List (String × Val)}, Val.beqDict a b = true → a = b
  | [], [], _ => rfl
  | [], _ :: _, h => by simp [Val.beqDict] at h
  | _ :: _, [], h => by simp [Val.beqDict] at h
  | (k, a) :: as, (k2, b) :: bs, h => by
      have h0 : k = k2 := by
        have := h; simp [Val.beqDict, Bool.and_eq_true] at this; exact this.1.1
      have h1 : Val.beq a b = true := by
        have := h; simp [Val.beqDict, Bool.and_eq_true] at this; exact this.1.2
      have h2 : Val.beqDict as bs = true := by
        have := h; simp [Val.beqDict, Bool.and_eq_true] at this; exact this.2
      rw [h0, Val.eq_of_beq h1, Val.eqDict_of_beq h2]

end

instance : DecidableEq Val := fun a b =>
  if h : Val.beq a b = true then .isTrue (Val.eq_of_beq h)
  else .isFalse (fun he => h (he ▸ Val.beq_refl a))

/-- A Python dict: insertion-ordered association list. -/
abbrev Dict := List (String × Val)

namespace Dict

/-- `d[k]` as an `Option` (a `none` is Python's `KeyError`). -/
def get : Dict → String → Option Val
  | [], _ => none
  | (k, v) :: rest, key => if k = key then some v else get rest key

/-- `d[k] = v`: update in place when the key exists (keeping its position),
append otherwise — CPython insertion-order semantics. -/
def set : Dict → String → Val → Dict
  | [], key, val => [(key, val)]
  | (k, v) :: rest, key, val =>
      if k = key then (k, val) :: rest else (k, v) :: set rest key val

/-- The ordered key list of a dict. -/
def keysOf (d : Dict) : List String := d.map Prod.fst

/-- `d.setdefault k v`: insert `(k, v)` only when `k` is absent. -/
def setdefault (d : Dict) (k : String) (v : Val) : Dict :=
  match d.get k with
  | some _ => d
  | none => d.set k v

end Dict

/-- Python exceptions that the migration code can raise. -/
inductive PyErr where
  | indexError : PyErr
  | keyError : String → PyErr
  | typeError : PyErr
  | attributeError : PyErr
  | valueError : PyErr
  deriving DecidableEq

/-! ## The field skeletons (source lines 797–814)

These are the module-level template dictionaries that the put branch reuses
(without copying) for every migration unit. -/

/-- `ndo_bd_tmpl_dict` (source lines 797–802). -/
def ndo_bd_tmpl_dict : Dict :=
  [("arpFlood", .vnone), ("description", .vstr ""), ("dhcpLabels", .vlist []),
   ("displayName", .vstr ""), ("intersiteBumTrafficAllow", .vnone),
   ("l2Stretch", .vnone), ("l2UnknownUnicast", .vstr ""), ("l3MCast", .vnone),
   ("multiDstPktAct", .vstr ""), ("name", .vstr ""),
   ("optimizeWanBandwidth", .vnone), ("subnets", .vlist []),
   ("unicastRouting", .vnone), ("unkMcastAct", .vstr ""),
   ("v6unkMcastAct", .vstr ""), ("vmac", .vstr ""), ("vrfRef", .vstr "")]

/-- `ndo_bd_site_dict` (source lines 803–805). -/
def ndo_bd_site_dict : Dict :=
  [("bdRef", .vstr ""), ("hostBasedRouting", .vnone), ("l3OutRefs", .vlist []),
   ("l3Outs", .vlist []), ("mac", .vstr ""), ("subnets", .vlist [])]

/-- `ndo_epg_tmpl_dict` (source lines 806–810). -/
def ndo_epg_tmpl_dict : Dict :=
  [("bdRef", .vstr ""), ("contractRelationships", .vlist []),
   ("description", .vstr ""), ("displayName", .vstr ""), ("epgType", .vstr ""),
   ("intraEpg", .vstr ""), ("mCastSource", .vnone), ("name", .vstr ""),
   ("preferredGroup", .vnone), ("proxyArp", .vnone), ("selectors", .vlist []),
   ("subnets", .vlist []), ("uSegAttrs", .vlist []), ("uSegEpg", .vnone)]

/-- `ndo_epg_site_dict` (source lines 811–814). -/
def ndo_epg_site_dict : Dict :=
  [("domainAssociations", .vlist []), ("epgRef", .vstr ""),
   ("selectors", .vlist []), ("staticLeafs", .vlist []),
   ("staticPorts", .vlist []), ("subnets", .vlist []), ("uSegAttrs", .vlist [])]

/-! ## Input rows

One source-side row and one destination-side row of the `EPG Selection`
sheet (only the fields the put branch reads).  Identifier cells are typed as
strings and index cells as integers, reflecting the typed rows the sheet
provides. -/

/-- A source unit row (`src_data_keys`, source lines 817–822). -/
structure SrcRow where
  siteId : String
  schemaId : String
  templId : String
  templName : String
  bdTemplId : Int
  anpTemplId : Int
  epgTemplId : Int
  bdSiteId : Int
  anpSiteId : Int
  epgSiteId : Int
  epgName : String
  deriving DecidableEq

/-- A destination unit row (`dst_data_keys`, source lines 823–827). -/
structure DstRow where
  siteId : String
  schemaId : String
  templName : String
  vrfRef : Val
  bdName : String
  bdL3Out1 : Val
  bdL3OutRef1 : Val
  bdL3Out2 : Val
  bdL3OutRef2 : Val
  anpRef : String
  epgName : String
  consContract : Val
  deriving DecidableEq

/-! ## The fetched schema tree

`ndo_schemas.json()` as far as the put branch reads it. -/

/-- An application profile node: the put branch only indexes its `epgs`. -/
structure Anp where
  epgs : List Dict
  deriving DecidableEq

/-- A template node of a schema. -/
structure Tmpl where
  templateID : String
  bds : List Dict
  anps : List Anp
  deriving DecidableEq

/-- A site node of a schema. -/
structure SiteNode where
  siteId : String
  bds : List Dict
  anps : List Anp
  deriving DecidableEq

/-- One schema of `ndo_schemas_json['schemas']`. -/
structure Schema where
  id : String
  templates : List Tmpl
  sites : List SiteNode
  deriving DecidableEq

/-- Python list indexing `l[i]` (negative indices count from the end);
`none` is an `IndexError`. -/
def pyGet (l : List α) (i : Int) : Option α :=
  if 0 ≤ i then l.get? i.toNat
  else
    let j := i + l.length
    if 0 ≤ j then l.get? j.toNat else none

/-! ## Resolve phase (source lines 874–894)

The four `src_*_data` variables are initialised to `{}` before the unit
loop (source lines 832–835) and are plain rebindings afterwards, so their
values carry over from one unit to the next; `ResolveState` is that
variable quadruple.  On an `IndexError` the assignments already performed
keep their new values (the exception aborts the rest of the block). -/

structure ResolveState where
  bdT : Dict
  bdS : Dict
  epgT : Dict
  epgS : Dict
  deriving DecidableEq

/-- The initial resolve state (`{}` for all four dicts). -/
def initResolveState : ResolveState := ⟨[], [], [], []⟩

/-- The inner template loop of the resolve phase (source lines 878–885). -/
def resolveTmpls (row : SrcRow) : ResolveState → List Tmpl → ResolveState × Option PyErr
  | rs, [] => (rs, none)
  | rs, t :: rest =>
    if t.templateID = row.templId then
      match pyGet t.bds row.bdTemplId with
      | none => (rs, some .indexError)
      | some bd =>
        let rs1 := { rs with bdT := bd }
        match pyGet t.anps row.anpTemplId with
        | none => (rs1, some .indexError)
        | some anp =>
          match pyGet anp.epgs row.epgTemplId with
          | none => (rs1, some .indexError)
          | some epg => resolveTmpls row { rs1 with epgT := epg } rest
    else resolveTmpls row rs rest

/-- The inner site loop of the resolve phase (source lines 887–894). -/
def resolveSites (row : SrcRow) : ResolveState → List SiteNode → ResolveState × Option PyErr
  | rs, [] => (rs, none)
  | rs, s :: rest =>
    if s.siteId = row.siteId then
      match pyGet s.bds row.bdSiteId with
      | none => (rs, some .indexError)
      | some bd =>
        let rs1 := { rs with bdS := bd }
        match pyGet s.anps row.anpSiteId with
        | none => (rs1, some .indexError)
        | some anp =>
          match pyGet anp.epgs row.epgSiteId with
          | none => (rs1, some .indexError)
          | some epg => resolveSites row { rs1 with epgS := epg } rest
    else resolveSites row rs rest

/-- The schema loop of the resolve phase (source lines 876–894).  Schemas
whose id does not match are passed over silently; a matching schema runs the
template loop and then the site loop. -/
def resolveSchemas (row : SrcRow) : ResolveState → List Schema → ResolveState × Option PyErr
  | rs, [] => (rs, none)
  | rs, sc :: rest =>
    if sc.id = row.schemaId then
      match resolveTmpls row rs sc.templates with
      | (rs1, some e) => (rs1, some e)
      | (rs1, none) =>
        match resolveSites row rs1 sc.sites with
        | (rs2, some e) => (rs2, some e)
        | (rs2, none) => resolveSchemas row rs2 rest
    else resolveSchemas row rs rest

/-! ## Map phase (source lines 896–969)

The `dst_*_data` variables are plain rebindings of the module-level skeleton
dictionaries (`dst_bd_tmpl_data: dict = ndo_bd_tmpl_dict`, ...), so writing
into a destination payload writes into the shared skeleton.  `SkelState`
carries the current contents of the four skeleton dicts; the map phase
returns their new contents, which double as the payloads. -/

structure SkelState where
  bdT : Dict
  bdS : Dict
  epgT : Dict
  epgS : Dict
  deriving DecidableEq

/-- The initial skeleton state (the literal defaults of lines 797–814). -/
def initSkelState : SkelState :=
  ⟨ndo_bd_tmpl_dict, ndo_bd_site_dict, ndo_epg_tmpl_dict, ndo_epg_site_dict⟩

/-- The loop `for key, value in dst.items(): dst[key] = src[key]` over an
explicit key list; a key absent from `src` raises `KeyError`. -/
def copyKeys (dst src : Dict) : List String → Except PyErr Dict
  | [] => .ok dst
  | k :: ks =>
    match src.get k with
    | none => .error (.keyError k)
    | some v => copyKeys (dst.set k v) src ks

/-- `for key, value in dst.items(): dst[key] = src[key]` — the key list is
`dst`'s own (fixed at loop entry; only values change during the loop). -/
def copyFrom (dst src : Dict) : Except PyErr Dict :=
  copyKeys dst src dst.keysOf

/-- The vMAC guard (source lines 903–907 / 916–920): probe `src['vmac']` and
default it to `""` when absent (mutating the source dict). -/
def vmacDefault (src : Dict) : Dict := src.setdefault "vmac" (.vstr "")

/-- The stretch-rule step of the BD mapping (source lines 902–930): returns
the updated destination template BD, destination site BD and (possibly
vMAC-mutated) source template BD.  When `l2Stretch` is neither exactly
`True` nor exactly `False`, no branch runs and all three dicts are
returned unchanged; a missing `l2Stretch` key raises `KeyError`. -/
def bdStretchStep (dstT dstS srcT srcS : Dict) : Except PyErr (Dict × Dict × Dict) :=
  match srcT.get "l2Stretch" with
  | none => .error (.keyError "l2Stretch")
  | some v =>
    if v = .vbool true then
      match copyFrom dstT (vmacDefault srcT) with
      | .error e => .error e
      | .ok dstT1 =>
        match copyFrom dstS srcS with
        | .error e => .error e
        | .ok dstS1 => .ok (dstT1, dstS1, vmacDefault srcT)
    else if v = .vbool false then
      match copyFrom dstT (vmacDefault srcT) with
      | .error e => .error e
      | .ok dstT1 =>
        match srcS.get "subnets" with
        | none => .error (.keyError "subnets")
        | some sn =>
          match copyFrom dstS srcS with
          | .error e => .error e
          | .ok dstS1 =>
            .ok (((((dstT1.set "arpFlood" (.vbool true)).set
                "intersiteBumTrafficAllow" (.vbool true)).set
                "l2Stretch" (.vbool true)).set
                "optimizeWanBandwidth" (.vbool true)).set "subnets" sn,
              dstS1, vmacDefault srcT)
    else .ok (dstT, dstS, srcT)

/-- Python's `str.startswith`, structurally over the character sequence. -/
def pyStartsWith (s pre : String) : Bool := pre.data.isPrefixOf s.data

/-- The host-based-routing condition of lines 941–943: the subnet IP prefix
and the destination BD-name site code must both match. -/
def hbrMatches (ip bdName : String) : Bool :=
  (pyStartsWith ip "10.14" && pyStartsWith bdName "WB") ||
  (pyStartsWith ip "10.17" && pyStartsWith bdName "YK")

/-- The body of the `for subnet in dst_bd_tmpl_data['subnets']` loop
(source lines 940–946): every iteration overwrites the single site-level
`hostBasedRouting` flag.  A non-dict subnet raises `TypeError`, a subnet
without `ip` raises `KeyError`, a non-string `ip` raises `AttributeError`
at `.startswith`. -/
def hbrFold (bdName : String) : Dict → List Val → Except PyErr Dict
  | dstS, [] => .ok dstS
  | dstS, s :: rest =>
    match s with
    | .vdict d =>
      match Dict.get d "ip" with
      | some (.vstr ip) =>
          hbrFold bdName (dstS.set "hostBasedRouting" (.vbool (hbrMatches ip bdName))) rest
      | some _ => .error .attributeError
      | none => .error (.keyError "ip")
    | _ => .error .typeError

/-- The destination-row part of the BD mapping (source lines 932–950):
L3Out attachment, destination name/displayName/vrfRef, the host-based
routing loop and the destination BD reference. -/
def bdRowStep (dstT dstS : Dict) (row : DstRow) : Except PyErr (Dict × Dict × String) :=
  match (((dstT.set "name" (.vstr row.bdName)).set
      "displayName" (.vstr row.bdName)).set "vrfRef" row.vrfRef).get "subnets" with
  | none => .error (.keyError "subnets")
  | some (.vlist subnets) =>
    match hbrFold row.bdName
        ((dstS.set "l3Outs" (.vlist [row.bdL3Out1, row.bdL3Out2])).set
          "l3OutRefs" (.vlist [row.bdL3OutRef1, row.bdL3OutRef2])) subnets with
    | .error e => .error e
    | .ok dstS2 =>
      .ok (((dstT.set "name" (.vstr row.bdName)).set
          "displayName" (.vstr row.bdName)).set "vrfRef" row.vrfRef,
        dstS2.set "bdRef" (.vstr ("/schemas/" ++ row.schemaId ++ "/templates/" ++
          row.templName ++ "/bds/" ++ row.bdName)),
        "/schemas/" ++ row.schemaId ++ "/templates/" ++ row.templName ++
          "/bds/" ++ row.bdName)
  | some _ => .error .typeError

/-- The EPG mapping (source lines 952–969).  Also returns the
`contract_relationships` list that lines 962–964 build: the source assembles
it but never stores it into any payload. -/
def epgStep (dstET dstES srcET srcES : Dict) (row : DstRow) (dstBdRef : String) :
    Except PyErr (Dict × Dict × List Val × String) :=
  match copyFrom dstET srcET with
  | .error e => .error e
  | .ok dstET1 =>
    match copyFrom dstES srcES with
    | .error e => .error e
    | .ok dstES1 =>
      .ok ((((dstET1.set "bdRef" (.vstr dstBdRef)).set
          "name" (.vstr row.epgName)).set
          "displayName" (.vstr row.epgName)).set "preferredGroup" (.vbool true),
        dstES1.set "epgRef" (.vstr (row.anpRef ++ "/epgs/" ++ row.epgName)),
        [.vdict [("contractRef", row.consContract), ("relationshipType", .vstr "consumer")]],
        row.anpRef ++ "/epgs/" ++ row.epgName)

/-- Everything the map phase of one unit produces. -/
structure MapOut where
  skel : SkelState
  srcT : Dict
  builtContracts : List Val
  dstBdRef : String
  dstEpgRef : String
  deriving DecidableEq

/-- The whole map phase of one unit (source lines 896–969): BD stretch rule,
destination-row BD overrides, then the EPG mapping.  `sk` is the current
contents of the shared skeleton dicts, `rs` the resolved source objects. -/
def mapUnit (sk : SkelState) (rs : ResolveState) (row : DstRow) : Except PyErr MapOut :=
  match bdStretchStep sk.bdT sk.bdS rs.bdT rs.bdS with
  | .error e => .error e
  | .ok (bdT1, bdS1, srcT1) =>
    match bdRowStep bdT1 bdS1 row with
    | .error e => .error e
    | .ok (bdT2, bdS2, bdRef) =>
      match epgStep sk.epgT sk.epgS rs.epgT rs.epgS row bdRef with
      | .error e => .error e
      | .ok (epgT2, epgS2, built, epgRef) =>
        .ok ⟨⟨bdT2, bdS2, epgT2, epgS2⟩, srcT1, built, bdRef, epgRef⟩

/-! ## Remote calls and the orchestrator loop (source lines 841–1050)

Each remote call made by the unit loop is recorded as an `Ev`.  An `Env`
assigns every call (numbered in issue order) an outcome:

* `ok` — 2xx response;
* `reqFail` — non-2xx: `raise_for_status` raises `RequestException`, which
  the `request_logger` decorator catches and logs, making the decorated
  function return `None`;
* `deployError` — for a status-check call: the deployment reached `Error`,
  so the inner function raises `RequestException`, which the decorator
  likewise swallows into a `None` return.

`main` ignores the return value of every patch and status-check call, so
their failures never alter control flow; the return value of
`deploy_ndo_template` is used (`deploy.json()['id']`), so a swallowed
failure there surfaces as an uncaught `AttributeError` on `None`. -/

/-- One remote call of the unit loop (operation, reference, payload). -/
inductive Ev where
  | patchTmplBD (oper : String) (bdRef : Val) (payload : Dict)
  | patchSiteBD (oper : String) (siteId : String) (payload : Dict)
  | patchTmplEPG (oper : String) (epgRef : Val) (payload : Dict)
  | patchSiteEPG (oper : String) (siteId : String) (payload : Dict)
  | patchStaticPorts (siteId : String) (ports : List Val)
  | deploy (schm tmpl : String)
  | statusGet (id : String)
  deriving DecidableEq

/-- The operation kind of an event, for phase-ordering statements. -/
inductive EvKind where
  | bdTmplPatch (oper : String)
  | bdSitePatch (oper : String)
  | epgTmplPatch (oper : String)
  | epgSitePatch (oper : String)
  | staticPortsPatch
  | deployTask
  | statusPoll
  deriving DecidableEq

/-- Forgets an event's reference and payload, keeping kind and operation. -/
def Ev.kind : Ev → EvKind
  | .patchTmplBD oper _ _ => .bdTmplPatch oper
  | .patchSiteBD oper _ _ => .bdSitePatch oper
  | .patchTmplEPG oper _ _ => .epgTmplPatch oper
  | .patchSiteEPG oper _ _ => .epgSitePatch oper
  | .patchStaticPorts _ _ => .staticPortsPatch
  | .deploy _ _ => .deployTask
  | .statusGet _ => .statusPoll

/-- Outcome of one remote call. -/
inductive CallOut where
  | ok | reqFail | deployError
  deriving DecidableEq

/-- The remote side: per-call outcomes and deployment task ids. -/
structure Env where
  outs : Nat → CallOut
  deployId : Nat → String

/-- How one unit of the loop ends: all phases done, skipped by the
`except IndexError` handler, or an uncaught exception killing the run. -/
inductive UnitOut where
  | completed | skippedIndex | crash (e : PyErr)
  deriving DecidableEq

/-- One iteration of the unit loop (source lines 874–1047): resolve, map,
then the fifteen remote calls of the create/decommission phase sequence.
`n` is the index of the unit's first remote call.  An `IndexError` is the
only exception the loop body catches (line 1045). -/
def runUnit (env : Env) (n : Nat) (sk : SkelState) (rs0 : ResolveState)
    (tree : List Schema) (srow : SrcRow) (drow : DstRow) :
    List Ev × SkelState × ResolveState × UnitOut × Nat :=
  match resolveSchemas srow rs0 tree with
  | (rs1, some .indexError) => ([], sk, rs1, .skippedIndex, n)
  | (rs1, some e) => ([], sk, rs1, .crash e, n)
  | (rs1, none) =>
    match mapUnit sk rs1 drow with
    | .error .indexError => ([], sk, rs1, .skippedIndex, n)
    | .error e => ([], sk, rs1, .crash e, n)
    | .ok m =>
      let rs2 := { rs1 with bdT := m.srcT }
      let sk2 := m.skel
      let t1 : List Ev :=
        [.patchTmplBD "add" (.vstr m.dstBdRef) sk2.bdT,
         .patchSiteBD "replace" drow.siteId sk2.bdS]
      match env.outs (n + 2) with
      | .ok =>
        let t3 := t1 ++
          [.deploy drow.schemaId drow.templName, .statusGet (env.deployId (n + 2)),
           .patchTmplEPG "add" (.vstr m.dstEpgRef) sk2.epgT,
           .patchSiteEPG "replace" drow.siteId sk2.epgS]
        match rs2.bdS.get "bdRef" with
        | none => (t3, sk2, rs2, .crash (.keyError "bdRef"), n + 6)
        | some srcBdRef =>
          match rs2.epgS.get "epgRef" with
          | none => (t3, sk2, rs2, .crash (.keyError "epgRef"), n + 6)
          | some srcEpgRef =>
            let t4 := t3 ++ [.patchStaticPorts srow.siteId []]
            match env.outs (n + 7) with
            | .ok =>
              let t5 := t4 ++
                [.deploy srow.schemaId srow.templName, .statusGet (env.deployId (n + 7))]
              match env.outs (n + 9) with
              | .ok =>
                let t7 := t5 ++
                  [.deploy drow.schemaId drow.templName, .statusGet (env.deployId (n + 9)),
                   .patchTmplEPG "remove" srcEpgRef rs2.epgT,
                   .patchTmplBD "remove" srcBdRef rs2.bdT]
                match env.outs (n + 13) with
                | .ok =>
                  (t7 ++ [.deploy srow.schemaId srow.templName,
                          .statusGet (env.deployId (n + 13))],
                   sk2, rs2, .completed, n + 15)
                | _ =>
                  (t7 ++ [.deploy srow.schemaId srow.templName], sk2, rs2,
                   .crash .attributeError, n + 14)
              | _ =>
                (t5 ++ [.deploy drow.schemaId drow.templName], sk2, rs2,
                 .crash .attributeError, n + 10)
            | _ =>
              (t4 ++ [.deploy srow.schemaId srow.templName], sk2, rs2,
               .crash .attributeError, n + 8)
      | _ =>
        (t1 ++ [.deploy drow.schemaId drow.templName], sk2, rs2,
         .crash .attributeError, n + 3)

/-- The unit loop (`for i in range(items)`, source line 873): a crash (an
uncaught exception) terminates the whole run; a skipped or completed unit
lets the loop continue with the carried-over skeleton and resolve state. -/
def runUnits (env : Env) : Nat → SkelState → ResolveState → List Schema →
    List (SrcRow × DstRow) → List Ev × List UnitOut × Option PyErr
  | _, _, _, _, [] => ([], [], none)
  | n, sk, rs, tree, (s, d) :: rest =>
    let r := runUnit env n sk rs tree s d
    match r.2.2.2.1 with
    | .crash e => (r.1, [UnitOut.crash e], some e)
    | o =>
      let r2 := runUnits env r.2.2.2.2 r.2.1 r.2.2.1 tree rest
      (r.1 ++ r2.1, o :: r2.2.1, r2.2.2)

/-- How the whole put branch ends. -/
inductive RunOutcome where
  | validationExit | finished | crashed (e : PyErr)
  deriving DecidableEq

/-- The put branch of `main` after the rows are read and the schema tree is
fetched (source lines 863–1049): the source/destination count assertion
(`sys.exit()` on mismatch, before any unit runs), then the unit loop. -/
def runMain (env : Env) (tree : List Schema) (srcRows : List SrcRow)
    (dstRows : List DstRow) : List Ev × List UnitOut × RunOutcome :=
  if srcRows.length = dstRows.length then
    match runUnits env 0 initSkelState initResolveState tree (srcRows.zip dstRows) with
    | (t, outs, none) => (t, outs, .finished)
    | (t, outs, some e) => (t, outs, .crashed e)
  else ([], [], .validationExit)

/-! ## The deployment status loop (source lines 281–296)

`ndo_deploy_status_check` polls `GET /deployments/{id}` until the task
status is `Complete`, raising on `Error`.  The loop has no timeout, so it
is modelled with explicit fuel: `none` means the loop is still running
after `fuel` polls.  `status i` is the task status the `i`-th poll
observes and `msg i` the first site's failure message in that poll
(line 292 logs it with its last three characters cut off). -/

def ndo_deploy_status_check (status msg : Nat → String) : Nat → Nat → Option (Except String Nat)
  | 0, _ => none
  | fuel + 1, i =>
    if status i = "Error" then some (.error ((msg i).dropRight 3))
    else if status i = "Complete" then some (.ok i)
    else ndo_deploy_status_check status msg fuel (i + 1)

/-! ## Concrete fixtures used by witnesses and counterexamples -/

/-- A subnet entry `{"ip": ip}`. -/
def mkSubnet (ip : String) : Val := .vdict [("ip", .vstr ip)]

/-- A source template BD carrying every skeleton field except `vmac`,
with the given stretch flag and subnets. -/
def mkSrcBdT (stretch : Val) (subnets : List Val) : Dict :=
  [("arpFlood", .vbool false), ("description", .vstr "src bd"),
   ("dhcpLabels", .vlist []), ("displayName", .vstr "BD1"),
   ("intersiteBumTrafficAllow", .vbool false), ("l2Stretch", stretch),
   ("l2UnknownUnicast", .vstr "proxy"), ("l3MCast", .vbool false),
   ("multiDstPktAct", .vstr "bd-flood"), ("name", .vstr "BD1"),
   ("optimizeWanBandwidth", .vbool false), ("subnets", .vlist subnets),
   ("unicastRouting", .vbool true), ("unkMcastAct", .vstr "flood"),
   ("v6unkMcastAct", .vstr "flood"), ("vrfRef", .vstr "/schemas/S1/templates/T1/vrfs/V1"),
   ("bdRef", .vstr "/schemas/S1/templates/T1/bds/BD1")]

/-- A source site BD carrying every site-skeleton field. -/
def mkSrcBdS (subnets : List Val) : Dict :=
  [("bdRef", .vstr "/schemas/S1/templates/T1/bds/BD1"),
   ("hostBasedRouting", .vbool false), ("l3OutRefs", .vlist []),
   ("l3Outs", .vlist []), ("mac", .vstr "00:22:BD:F8:19:FF"),
   ("subnets", .vlist subnets)]

/-- A source template EPG carrying every EPG-skeleton field. -/
def mkSrcEpgT (contractRels : List Val) : Dict :=
  [("bdRef", .vstr "/schemas/S1/templates/T1/bds/BD1"),
   ("contractRelationships", .vlist contractRels),
   ("description", .vstr "src epg"), ("displayName", .vstr "EPG1"),
   ("epgType", .vstr "application"), ("intraEpg", .vstr "unenforced"),
   ("mCastSource", .vbool false), ("name", .vstr "EPG1"),
   ("preferredGroup", .vbool false), ("proxyArp", .vbool false),
   ("selectors", .vlist []), ("subnets", .vlist []),
   ("uSegAttrs", .vlist []), ("uSegEpg", .vbool false),
   ("epgRef", .vstr "/schemas/S1/templates/T1/anps/ANP1/epgs/EPG1")]

/-- A source site EPG carrying every site-EPG-skeleton field. -/
def mkSrcEpgS : Dict :=
  [("domainAssociations", .vlist []),
   ("epgRef", .vstr "/schemas/S1/templates/T1/anps/ANP1/epgs/EPG1"),
   ("selectors", .vlist []), ("staticLeafs", .vlist []),
   ("staticPorts", .vlist [.vdict [("path", .vstr "eth1/1")]]),
   ("subnets", .vlist []), ("uSegAttrs", .vlist [])]

/-- A source row addressing schema `S1`, template id `T1id`, site `site1`. -/
def srcRow1 : SrcRow :=
  ⟨"site1", "S1", "T1id", "T1", 0, 0, 0, 0, 0, 0, "EPG1"⟩

/-- A destination row placing the unit in schema `S2` as `WB-BD1`/`EPG2`. -/
def dstRow1 : DstRow :=
  ⟨"site2", "S2", "T2", .vstr "/schemas/S2/templates/T2/vrfs/V2", "WB-BD1",
   .vstr "L3OUT-A", .vstr "/schemas/S2/templates/T2/l3outs/L3OUT-A",
   .vstr "L3OUT-B", .vstr "/schemas/S2/templates/T2/l3outs/L3OUT-B",
   "/schemas/S2/templates/T2/anps/ANP2", "EPG2",
   .vstr "/schemas/S2/templates/T2/contracts/CON1"⟩

/-- A schema tree in which `srcRow1` resolves at every index. -/
def mkTree (bdT : Dict) (bdS : Dict) (epgT : Dict) (epgS : Dict) : List Schema :=
  [⟨"S1", [⟨"T1id", [bdT], [⟨[epgT]⟩]⟩], [⟨"site1", [bdS], [⟨[epgS]⟩]⟩]⟩]

/-- An environment in which every remote call returns 2xx. -/
def envAllOk : Env := ⟨fun _ => .ok, fun n => "task" ++ toString n⟩

/-! ## Lemmas about the dict model -/

namespace Dict

theorem get_set (d : Dict) (k k' : String) (v : Val) :
    (d.set k v).get k' = if k = k' then some v else d.get k' := by
  induction d with
  | nil => by_cases h : k = k' <;> simp [set, get, h]
  | cons kv rest ih =>
    obtain ⟨k0, v0⟩ := kv
    by_cases h0 : k0 = k
    · subst h0
      by_cases h1 : k0 = k' <;> simp [set, get, h1]
    · by_cases h1 : k = k'
      · subst h1; simp [set, get, h0, ih, Ne.symm h0]
      · by_cases h2 : k0 = k' <;> simp [set, get, h0, h1, h2, ih, Ne.symm h1]

theorem keysOf_set_mem (d : Dict) (k : String) (v : Val) (h : k ∈ d.keysOf) :
    (d.set k v).keysOf = d.keysOf := by
  induction d with
  | nil => simp [keysOf] at h
  | cons kv rest ih =>
    obtain ⟨k0, v0⟩ := kv
    by_cases h0 : k0 = k
    · simp [set, h0, keysOf]
    · have hmem : k ∈ keysOf rest := by
        simpa [keysOf, Ne.symm h0] using h
      have ih2 := ih hmem
      simp only [keysOf, List.map] at ih2 ⊢
      simp [set, h0, ih2]

theorem set_set_same (d : Dict) (k : String) (a b : Val) :
    (d.set k a).set k b = d.set k b := by
  induction d with
  | nil => simp [set]
  | cons kv rest ih =>
    obtain ⟨k0, v0⟩ := kv
    by_cases h0 : k0 = k <;> simp [set, h0, ih]

theorem set_get_self (d : Dict) (k : String) (v : Val) (h : d.get k = some v) :
    d.set k v = d := by
  induction d with
  | nil => simp [get] at h
  | cons kv rest ih =>
    obtain ⟨k0, v0⟩ := kv
    by_cases h0 : k0 = k
    · subst h0
      simp [get] at h
      simp [set, h]
    · simp [get, h0] at h
      simp [set, h0, ih h]

theorem get_setdefault_ne (d : Dict) (k k' : String) (v : Val) (h : k ≠ k') :
    (d.setdefault k v).get k' = d.get k' := by
  unfold setdefault
  cases hg : d.get k with
  | some w => rfl
  | none => simp [get_set, h]

theorem setdefault_isSome (d : Dict) (k : String) (v : Val) :
    ((d.setdefault k v).get k).isSome := by
  unfold setdefault
  cases hg : d.get k with
  | some w => simp [hg]
  | none => simp [get_set]

theorem setdefault_idem (d : Dict) (k : String) (v : Val) :
    (d.setdefault k v).setdefault k v = d.setdefault k v := by
  have h := setdefault_isSome d k v
  unfold setdefault
  cases hg : (d.setdefault k v).get k with
  | some w =>
    unfold setdefault at hg
    cases hg2 : d.get k with
    | some u => simp [hg2]
    | none => simp [hg2] at hg ⊢; simp [setdefault, hg2, hg]
  | none => simp [hg] at h

theorem keysOf_setdefault_of_mem (d : Dict) (k : String) (v : Val)
    (h : k ∈ d.keysOf) : (d.setdefault k v).keysOf = d.keysOf := by
  unfold setdefault
  cases hg : d.get k with
  | some w => rfl
  | none => exact keysOf_set_mem d k v h

end Dict

/-! ## Lemmas about the copy loop -/

theorem copyKeys_ok_present {d s d' : Dict} {ks : List String}
    (h : copyKeys d s ks = .ok d') : ∀ k ∈ ks, (s.get k).isSome := by
  induction ks generalizing d with
  | nil => simp
  | cons k0 ks ih =>
    cases hs : s.get k0 with
    | none => simp [copyKeys, hs] at h
    | some v =>
      simp only [copyKeys, hs] at h
      intro k hk
      rcases List.mem_cons.mp hk with rfl | hk2
      · simp [hs]
      · exact ih h k hk2

theorem copyKeys_get_notmem {d s d' : Dict} {ks : List String} {k : String}
    (h : copyKeys d s ks = .ok d') (hk : k ∉ ks) : d'.get k = d.get k := by
  induction ks generalizing d with
  | nil =>
    simp only [copyKeys, Except.ok.injEq] at h
    rw [h]
  | cons k0 ks ih =>
    cases hs : s.get k0 with
    | none => simp [copyKeys, hs] at h
    | some v =>
      simp only [copyKeys, hs] at h
      have hne : k ≠ k0 := fun he => hk (he ▸ List.mem_cons_self k0 ks)
      have hnk : k ∉ ks := fun he => hk (List.mem_cons_of_mem _ he)
      rw [ih h hnk, Dict.get_set, if_neg (Ne.symm hne)]

theorem copyKeys_get_mem {d s d' : Dict} {ks : List String} {k : String}
    (h : copyKeys d s ks = .ok d') (hk : k ∈ ks) : d'.get k = s.get k := by
  induction ks generalizing d with
  | nil => simp at hk
  | cons k0 ks ih =>
    cases hs : s.get k0 with
    | none => simp [copyKeys, hs] at h
    | some v =>
      simp only [copyKeys, hs] at h
      by_cases hmem : k ∈ ks
      · exact ih h hmem
      · have hk0 : k = k0 := by
          rcases List.mem_cons.mp hk with rfl | h2
          · rfl
          · exact absurd h2 hmem
        subst hk0
        rw [copyKeys_get_notmem h hmem, Dict.get_set, if_pos rfl, hs]

theorem copyKeys_keysOf {d s d' : Dict} {ks : List String}
    (h : copyKeys d s ks = .ok d') (hks : ∀ k ∈ ks, k ∈ d.keysOf) :
    d'.keysOf = d.keysOf := by
  induction ks generalizing d with
  | nil =>
    simp only [copyKeys, Except.ok.injEq] at h
    rw [h]
  | cons k0 ks ih =>
    cases hs : s.get k0 with
    | none => simp [copyKeys, hs] at h
    | some v =>
      simp only [copyKeys, hs] at h
      have hk0 : k0 ∈ d.keysOf := hks k0 (List.mem_cons_self k0 ks)
      have hkeys : (d.set k0 v).keysOf = d.keysOf := Dict.keysOf_set_mem d k0 v hk0
      have hks2 : ∀ k ∈ ks, k ∈ (d.set k0 v).keysOf := by
        intro k hk; rw [hkeys]; exact hks k (List.mem_cons_of_mem _ hk)
      rw [ih h hks2, hkeys]

/-- The value-replacement view of the copy loop: every entry of `d` keeps
its key and takes `s`'s value for that key. -/
def mapVals (s d : Dict) : Dict :=
  d.map (fun kv => (kv.1, (s.get kv.1).getD .vnone))

theorem mapVals_eq_keys_map (s d : Dict) :
    mapVals s d = d.keysOf.map (fun k => (k, (s.get k).getD .vnone)) := by
  simp [mapVals, Dict.keysOf, List.map_map]

theorem mapVals_keys_congr {s d e : Dict} (h : d.keysOf = e.keysOf) :
    mapVals s d = mapVals s e := by
  rw [mapVals_eq_keys_map, mapVals_eq_keys_map, h]

theorem copyKeys_cons_notmem {s : Dict} {ks : List String} (kv : String × Val)
    (d : Dict) (h : kv.1 ∉ ks) :
    copyKeys (kv :: d) s ks = Except.map (fun d' => kv :: d') (copyKeys d s ks) := by
  induction ks generalizing d with
  | nil => simp [copyKeys, Except.map]
  | cons k0 ks ih =>
    cases hs : s.get k0 with
    | none => simp [copyKeys, hs, Except.map]
    | some v =>
      have hne : kv.1 ≠ k0 := fun he => h (he ▸ List.mem_cons_self k0 ks)
      have hnk : kv.1 ∉ ks := fun he => h (List.mem_cons_of_mem _ he)
      obtain ⟨k1, v1⟩ := kv
      simp only [copyKeys, hs, Dict.set, if_neg hne]
      exact ih _ hnk

theorem copyFrom_eq_mapVals {s : Dict} :
    ∀ d : Dict, d.keysOf.Nodup → (∀ k ∈ d.keysOf, (s.get k).isSome) →
      copyFrom d s = .ok (mapVals s d) := by
  intro d
  induction d with
  | nil => intro _ _; rfl
  | cons kv rest ih =>
    intro hnd hpres
    obtain ⟨k0, v0⟩ := kv
    have hk0 : (s.get k0).isSome := hpres k0 (by simp [Dict.keysOf])
    obtain ⟨w, hw⟩ := Option.isSome_iff_exists.mp hk0
    have hnd1 : (k0 :: Dict.keysOf rest).Nodup := by
      simpa [Dict.keysOf] using hnd
    have hnotmem : k0 ∉ Dict.keysOf rest := (List.nodup_cons.mp hnd1).1
    have hnd2 : (Dict.keysOf rest).Nodup := (List.nodup_cons.mp hnd1).2
    have hpres2 : ∀ k ∈ Dict.keysOf rest, (s.get k).isSome := by
      intro k hk; exact hpres k (by simp [Dict.keysOf] at hk ⊢; exact Or.inr hk)
    have step : copyFrom ((k0, v0) :: rest) s =
        copyKeys ((k0, w) :: rest) s (Dict.keysOf rest) := by
      simp only [copyFrom, Dict.keysOf, List.map, copyKeys, hw, Dict.set, if_pos rfl]
      rfl
    rw [step, copyKeys_cons_notmem (k0, w) rest hnotmem]
    have ihr : copyKeys rest s (Dict.keysOf rest) = .ok (mapVals s rest) :=
      ih hnd2 hpres2
    rw [ihr]
    simp [Except.map, mapVals, hw]

/-! ## Characterisation of the host-based-routing loop -/

/-- The IP string of a subnet entry, when it has the shape the loop needs. -/
def subnetIp : Val → Option String
  | .vdict d => match Dict.get d "ip" with
    | some (.vstr ip) => some ip
    | _ => none
  | _ => none

/-- A successful run of the `hostBasedRouting` loop is insensitive to the
starting dict: from any start `e` it succeeds, leaving `e` untouched for an
empty subnet list and otherwise overwriting the single flag with the
verdict of the **last** subnet. -/
theorem hbrFold_char {bdName : String} {ss : List Val} {d d' : Dict}
    (h : hbrFold bdName d ss = .ok d') (e : Dict) :
    (ss = [] ∧ hbrFold bdName e ss = .ok e) ∨
    (∃ sl ip, ss.getLast? = some sl ∧ subnetIp sl = some ip ∧
      hbrFold bdName e ss =
        .ok (e.set "hostBasedRouting" (.vbool (hbrMatches ip bdName)))) := by
  induction ss generalizing d e with
  | nil => exact Or.inl ⟨rfl, rfl⟩
  | cons s rest ih =>
    refine Or.inr ?_
    cases s with
    | vdict dd =>
      cases hip : Dict.get dd "ip" with
      | none => simp [hbrFold, hip] at h
      | some ipv =>
        cases ipv with
        | vstr ip0 =>
          simp only [hbrFold, hip] at h
          rcases ih h (e.set "hostBasedRouting" (.vbool (hbrMatches ip0 bdName))) with
            ⟨hrest, hfold⟩ | ⟨sl, ip, hlast, hsip, hfold⟩
          · subst hrest
            exact ⟨.vdict dd, ip0, rfl, by simp [subnetIp, hip], by
              simp [hbrFold, hip, hfold]⟩
          · have hne : rest ≠ [] := by
              intro hcon; rw [hcon] at hlast; simp at hlast
            refine ⟨sl, ip, ?_, hsip, ?_⟩
            · rw [List.getLast?_cons, hlast]
              rfl
            · simp only [hbrFold, hip]
              rw [hfold, Dict.set_set_same]
        | vnone => simp [hbrFold, hip] at h
        | vbool b => simp [hbrFold, hip] at h
        | vlist l => simp [hbrFold, hip] at h
        | vdict d2 => simp [hbrFold, hip] at h
    | vnone => simp [hbrFold] at h
    | vbool b => simp [hbrFold] at h
    | vstr s2 => simp [hbrFold] at h
    | vlist l => simp [hbrFold] at h

/-! ## Inversion lemmas for the mapping stages -/

/-- What a successful `bdRowStep` tells us. -/
theorem bdRowStep_ok_inv {dstT dstS : Dict} {row : DstRow} {a b : Dict} {r : String}
    (h : bdRowStep dstT dstS row = .ok (a, b, r)) :
    ∃ subnets d2,
      a = ((dstT.set "name" (.vstr row.bdName)).set
            "displayName" (.vstr row.bdName)).set "vrfRef" row.vrfRef ∧
      a.get "subnets" = some (.vlist subnets) ∧
      hbrFold row.bdName
        ((dstS.set "l3Outs" (.vlist [row.bdL3Out1, row.bdL3Out2])).set
          "l3OutRefs" (.vlist [row.bdL3OutRef1, row.bdL3OutRef2])) subnets = .ok d2 ∧
      r = "/schemas/" ++ row.schemaId ++ "/templates/" ++ row.templName ++
          "/bds/" ++ row.bdName ∧
      b = d2.set "bdRef" (.vstr r) := by
  unfold bdRowStep at h
  cases hsub : (((dstT.set "name" (.vstr row.bdName)).set
      "displayName" (.vstr row.bdName)).set "vrfRef" row.vrfRef).get "subnets" with
  | none => rw [hsub] at h; simp at h
  | some sv =>
    rw [hsub] at h
    cases sv with
    | vlist subnets =>
      dsimp only at h
      cases hfold : hbrFold row.bdName
          ((dstS.set "l3Outs" (.vlist [row.bdL3Out1, row.bdL3Out2])).set
            "l3OutRefs" (.vlist [row.bdL3OutRef1, row.bdL3OutRef2])) subnets with
      | error e => rw [hfold] at h; simp at h
      | ok d2 =>
        rw [hfold] at h
        simp only [Except.ok.injEq, Prod.mk.injEq] at h
        refine ⟨subnets, d2, h.1.symm, ?_, hfold, h.2.2.symm, ?_⟩
        · rw [← h.1]; exact hsub
        · rw [← h.2.2]; exact h.2.1.symm
    | vnone => simp at h
    | vbool b2 => simp at h
    | vstr s2 => simp at h
    | vdict dd => simp at h

/-- What a successful `bdStretchStep` tells us: the three branches of the
stretch rule. -/
theorem bdStretchStep_ok_inv {dstT dstS srcT srcS : Dict} {out : Dict × Dict × Dict}
    (h : bdStretchStep dstT dstS srcT srcS = .ok out) :
    ∃ v, srcT.get "l2Stretch" = some v ∧
      ((v = .vbool true ∧ ∃ dT dS,
          copyFrom dstT (vmacDefault srcT) = .ok dT ∧
          copyFrom dstS srcS = .ok dS ∧ out = (dT, dS, vmacDefault srcT)) ∨
       (v = .vbool false ∧ ∃ dT dS sn,
          copyFrom dstT (vmacDefault srcT) = .ok dT ∧
          srcS.get "subnets" = some sn ∧
          copyFrom dstS srcS = .ok dS ∧
          out = (((((dT.set "arpFlood" (.vbool true)).set
              "intersiteBumTrafficAllow" (.vbool true)).set
              "l2Stretch" (.vbool true)).set
              "optimizeWanBandwidth" (.vbool true)).set "subnets" sn,
            dS, vmacDefault srcT)) ∨
       (¬ v = .vbool true ∧ ¬ v = .vbool false ∧ out = (dstT, dstS, srcT))) := by
  unfold bdStretchStep at h
  cases hl : srcT.get "l2Stretch" with
  | none => rw [hl] at h; simp at h
  | some v =>
    rw [hl] at h
    dsimp only at h
    refine ⟨v, rfl, ?_⟩
    by_cases hv : v = .vbool true
    · rw [if_pos hv] at h
      cases hc1 : copyFrom dstT (vmacDefault srcT) with
      | error e => rw [hc1] at h; simp at h
      | ok dT =>
        rw [hc1] at h
        dsimp only at h
        cases hc2 : copyFrom dstS srcS with
        | error e => rw [hc2] at h; simp at h
        | ok dS =>
          rw [hc2] at h
          dsimp only at h
          exact Or.inl ⟨hv, dT, dS, rfl, rfl, (Except.ok.injEq .. ▸ h).symm⟩
    · rw [if_neg hv] at h
      by_cases hv2 : v = .vbool false
      · rw [if_pos hv2] at h
        cases hc1 : copyFrom dstT (vmacDefault srcT) with
        | error e => rw [hc1] at h; simp at h
        | ok dT =>
          rw [hc1] at h
          dsimp only at h
          cases hsn : srcS.get "subnets" with
          | none => rw [hsn] at h; simp at h
          | some sn =>
            rw [hsn] at h
            dsimp only at h
            cases hc2 : copyFrom dstS srcS with
            | error e => rw [hc2] at h; simp at h
            | ok dS =>
              rw [hc2] at h
              dsimp only at h
              exact Or.inr (Or.inl ⟨hv2, dT, dS, sn, rfl, rfl, rfl,
                (Except.ok.injEq .. ▸ h).symm⟩)
      · rw [if_neg hv2] at h
        exact Or.inr (Or.inr ⟨hv, hv2, (Except.ok.injEq .. ▸ h).symm⟩)

/-- What a successful `epgStep` tells us. -/
theorem epgStep_ok_inv {dstET dstES srcET srcES : Dict} {row : DstRow} {bdRef : String}
    {out : Dict × Dict × List Val × String}
    (h : epgStep dstET dstES srcET srcES row bdRef = .ok out) :
    ∃ eT eS, copyFrom dstET srcET = .ok eT ∧ copyFrom dstES srcES = .ok eS ∧
      out = ((((eT.set "bdRef" (.vstr bdRef)).set "name" (.vstr row.epgName)).set
          "displayName" (.vstr row.epgName)).set "preferredGroup" (.vbool true),
        eS.set "epgRef" (.vstr (row.anpRef ++ "/epgs/" ++ row.epgName)),
        [.vdict [("contractRef", row.consContract), ("relationshipType", .vstr "consumer")]],
        row.anpRef ++ "/epgs/" ++ row.epgName) := by
  unfold epgStep at h
  cases hc1 : copyFrom dstET srcET with
  | error e => rw [hc1] at h; simp at h
  | ok eT =>
    rw [hc1] at h
    dsimp only at h
    cases hc2 : copyFrom dstES srcES with
    | error e => rw [hc2] at h; simp at h
    | ok eS =>
      rw [hc2] at h
      dsimp only at h
      exact ⟨eT, eS, rfl, rfl, (Except.ok.injEq .. ▸ h).symm⟩

/-- What a successful `mapUnit` tells us: the three stages succeed in
sequence and the payloads are the stages' outputs. -/
theorem mapUnit_ok_inv {sk : SkelState} {rs : ResolveState} {row : DstRow} {m : MapOut}
    (h : mapUnit sk rs row = .ok m) :
    ∃ bdT1 bdS1 srcT1 bdT2 bdS2 r epgT2 epgS2 built eRef,
      bdStretchStep sk.bdT sk.bdS rs.bdT rs.bdS = .ok (bdT1, bdS1, srcT1) ∧
      bdRowStep bdT1 bdS1 row = .ok (bdT2, bdS2, r) ∧
      epgStep sk.epgT sk.epgS rs.epgT rs.epgS row r = .ok (epgT2, epgS2, built, eRef) ∧
      m = ⟨⟨bdT2, bdS2, epgT2, epgS2⟩, srcT1, built, r, eRef⟩ := by
  unfold mapUnit at h
  cases h1 : bdStretchStep sk.bdT sk.bdS rs.bdT rs.bdS with
  | error e => rw [h1] at h; simp at h
  | ok o1 =>
    obtain ⟨bdT1, bdS1, srcT1⟩ := o1
    rw [h1] at h
    dsimp only at h
    cases h2 : bdRowStep bdT1 bdS1 row with
    | error e => rw [h2] at h; simp at h
    | ok o2 =>
      obtain ⟨bdT2, bdS2, r⟩ := o2
      rw [h2] at h
      dsimp only at h
      cases h3 : epgStep sk.epgT sk.epgS rs.epgT rs.epgS row r with
      | error e => rw [h3] at h; simp at h
      | ok o3 =>
        obtain ⟨epgT2, epgS2, built, eRef⟩ := o3
        rw [h3] at h
        dsimp only at h
        exact ⟨bdT1, bdS1, srcT1, bdT2, bdS2, r, epgT2, epgS2, built, eRef,
          rfl, h2, h3, (Except.ok.injEq .. ▸ h).symm⟩

/-! ## Lemmas about the deployment status loop -/

theorem status_check_reaches {status msg : Nat → String} :
    ∀ (fuel s i : Nat), s ≤ i → i < s + fuel →
      (∀ j, s ≤ j → j < i → status j ≠ "Complete" ∧ status j ≠ "Error") →
      (status i = "Complete" →
        ndo_deploy_status_check status msg fuel s = some (.ok i)) ∧
      (status i = "Error" →
        ndo_deploy_status_check status msg fuel s = some (.error ((msg i).dropRight 3))) := by
  intro fuel
  induction fuel with
  | zero => intro s i h1 h2 _; omega
  | succ f ih =>
    intro s i h1 h2 hpre
    rcases Nat.eq_or_lt_of_le h1 with rfl | hlt
    · constructor
      · intro hc
        have hne : status s ≠ "Error" := by rw [hc]; decide
        simp [ndo_deploy_status_check, hne, hc]
      · intro he
        simp [ndo_deploy_status_check, he]
    · have hs := hpre s le_rfl hlt
      have := ih (s + 1) i hlt (by omega)
        (fun j hj1 hj2 => hpre j (by omega) hj2)
      constructor
      · intro hc
        simp [ndo_deploy_status_check, hs.1, hs.2, this.1 hc]
      · intro he
        simp [ndo_deploy_status_check, hs.1, hs.2, this.2 he]

theorem status_check_diverges {status msg : Nat → String}
    (h : ∀ j, status j ≠ "Complete" ∧ status j ≠ "Error") :
    ∀ fuel s, ndo_deploy_status_check status msg fuel s = none := by
  intro fuel
  induction fuel with
  | zero => intro s; rfl
  | succ f ih =>
    intro s
    simp [ndo_deploy_status_check, (h s).1, (h s).2, ih]

theorem status_check_terminates_inv {status msg : Nat → String} :
    ∀ (fuel s : Nat) (r : Except String Nat),
      ndo_deploy_status_check status msg fuel s = some r →
      ∃ j, s ≤ j ∧ (∀ k, s ≤ k → k < j → status k ≠ "Complete" ∧ status k ≠ "Error") ∧
        ((r = .ok j ∧ status j = "Complete") ∨
         (r = .error ((msg j).dropRight 3) ∧ status j = "Error")) := by
  intro fuel
  induction fuel with
  | zero => intro s r h; simp [ndo_deploy_status_check] at h
  | succ f ih =>
    intro s r h
    by_cases he : status s = "Error"
    · simp only [ndo_deploy_status_check, he, if_pos rfl] at h
      refine ⟨s, le_rfl, fun k hk1 hk2 => absurd (le_trans hk1 (le_of_lt hk2)) (by omega), ?_⟩
      · simp only [reduceIte] at h
        exact Or.inr ⟨(Option.some.injEq .. ▸ h).symm, he⟩
    · by_cases hc : status s = "Complete"
      · simp only [ndo_deploy_status_check, he, hc, if_neg he, if_pos rfl] at h
        refine ⟨s, le_rfl, fun k hk1 hk2 => absurd (le_trans hk1 (le_of_lt hk2)) (by omega), ?_⟩
        exact Or.inl ⟨(Option.some.injEq .. ▸ h).symm, hc⟩
      · simp only [ndo_deploy_status_check, if_neg he, if_neg hc] at h
        obtain ⟨j, hj1, hj2, hj3⟩ := ih (s + 1) r h
        refine ⟨j, by omega, ?_, hj3⟩
        intro k hk1 hk2
        rcases Nat.eq_or_lt_of_le hk1 with rfl | hklt
        · exact ⟨hc, he⟩
        · exact hj2 k hklt hk2

/-! ## Concrete fixtures for claim instances -/

/-- A source row whose `schemaId` matches no schema in the tree. -/
def srcRowNoSchema : SrcRow := { srcRow1 with schemaId := "NO-SUCH-SCHEMA" }

/-- A source row whose template-BD index is out of range for the fixture tree. -/
def srcRowBadIdx : SrcRow := { srcRow1 with bdTemplId := 5 }

/-- The fixture schema tree: a stretched source BD with one subnet. -/
def treeFix : List Schema :=
  mkTree (mkSrcBdT (.vbool true) [mkSubnet "10.13.1.0"])
    (mkSrcBdS [mkSubnet "10.14.9.0"]) (mkSrcEpgT []) mkSrcEpgS

/-- The resolve state `treeFix` produces for `srcRow1`. -/
def rsFix : ResolveState := (resolveSchemas srcRow1 initResolveState treeFix).1

/-- The map output of the first fixture unit. -/
def mFix : MapOut :=
  (mapUnit initSkelState rsFix dstRow1).toOption.getD ⟨initSkelState, [], [], "", ""⟩

/-- An environment failing only the very first remote call (the destination
template-BD add patch) with a non-2xx response. -/
def envPatchFail : Env :=
  ⟨fun n => if n = 0 then .reqFail else .ok, fun n => "task" ++ toString n⟩

/-- An environment failing only the third remote call (the destination
deploy). -/
def envDeployFail : Env :=
  ⟨fun n => if n = 2 then .reqFail else .ok, fun n => "task" ++ toString n⟩

/-- A status stream that is `InProgress` once and then `Complete`. -/
def statFixOk : Nat → String := fun j => if j = 0 then "InProgress" else "Complete"

/-- A constant failure-message stream. -/
def msgFix : Nat → String := fun _ => "deploy failed..."

/-! ## Claims -/

/-- C7: for every pair of source and destination unit lists of unequal
length, the orchestrator performs zero remote mutations (no PATCH or deploy
task calls — the trace is empty) and aborts the entire run before
processing any unit. -/
theorem claim_C7_theorem (env : Env) (tree : List Schema) (srcRows : List SrcRow)
    (dstRows : List DstRow) (h : srcRows.length ≠ dstRows.length) :
    runMain env tree srcRows dstRows = ([], [], .validationExit) := by
  unfold runMain
  rw [if_neg h]

/-- Witness for C7 at one source row and zero destination rows. -/
theorem claim_C7_witness :
    [srcRow1].length ≠ ([] : List DstRow).length ∧
    runMain envAllOk treeFix [srcRow1] [] = ([], [], .validationExit) :=
  ⟨by decide, claim_C7_theorem envAllOk treeFix [srcRow1] [] (by decide)⟩

/-- C8: the deployment status loop returns normally exactly when a poll
observes `Complete` (with no earlier terminal status), raises exactly when
a poll observes `Error` (surfacing the first site's failure message, its
last three characters cut), and for a status stream that never reaches
`Complete` or `Error` it polls forever — after any number of polls it is
still running (no timeout). -/
theorem claim_C8_theorem (status msg : Nat → String) (i : Nat)
    (hpre : ∀ j, j < i → status j ≠ "Complete" ∧ status j ≠ "Error") :
    (status i = "Complete" → ∀ fuel, i < fuel →
      ndo_deploy_status_check status msg fuel 0 = some (.ok i)) ∧
    (status i = "Error" → ∀ fuel, i < fuel →
      ndo_deploy_status_check status msg fuel 0 = some (.error ((msg i).dropRight 3))) ∧
    ((∀ j, status j ≠ "Complete" ∧ status j ≠ "Error") → ∀ fuel s,
      ndo_deploy_status_check status msg fuel s = none) ∧
    (∀ fuel r, ndo_deploy_status_check status msg fuel 0 = some r →
      ∃ j, (∀ k, k < j → status k ≠ "Complete" ∧ status k ≠ "Error") ∧
        ((r = .ok j ∧ status j = "Complete") ∨
         (r = .error ((msg j).dropRight 3) ∧ status j = "Error"))) := by
  refine ⟨?_, ?_, ?_, ?_⟩
  · intro hc fuel hf
    exact (status_check_reaches fuel 0 i (Nat.zero_le i) (by omega)
      (fun j _ hj => hpre j hj)).1 hc
  · intro he fuel hf
    exact (status_check_reaches fuel 0 i (Nat.zero_le i) (by omega)
      (fun j _ hj => hpre j hj)).2 he
  · intro hnever fuel s
    exact status_check_diverges hnever fuel s
  · intro fuel r h
    obtain ⟨j, _, hj2, hj3⟩ := status_check_terminates_inv fuel 0 r h
    exact ⟨j, fun k hk => hj2 k (Nat.zero_le k) hk, hj3⟩

/-- Witness for C8: a stream completing on the second poll. -/
theorem claim_C8_witness :
    (∀ j, j < 1 → statFixOk j ≠ "Complete" ∧ statFixOk j ≠ "Error") ∧
    ndo_deploy_status_check statFixOk msgFix 3 0 = some (.ok 1) := by
  refine ⟨by decide, ?_⟩
  exact (claim_C8_theorem statFixOk msgFix 1 (by decide)).1 (by decide) 3 (by decide)

/-- A source template BD with no `l2Stretch` key at all. -/
def srcBdTNoStretch : Dict :=
  [("arpFlood", .vbool false), ("description", .vstr "src bd"),
   ("dhcpLabels", .vlist []), ("displayName", .vstr "BD1"),
   ("intersiteBumTrafficAllow", .vbool false),
   ("l2UnknownUnicast", .vstr "proxy"), ("l3MCast", .vbool false),
   ("multiDstPktAct", .vstr "bd-flood"), ("name", .vstr "BD1"),
   ("optimizeWanBandwidth", .vbool false), ("subnets", .vlist []),
   ("unicastRouting", .vbool true), ("unkMcastAct", .vstr "flood"),
   ("v6unkMcastAct", .vstr "flood"), ("vrfRef", .vstr "/schemas/S1/templates/T1/vrfs/V1"),
   ("bdRef", .vstr "/schemas/S1/templates/T1/bds/BD1")]

/-- A tree whose source BD template lacks the `l2Stretch` key. -/
def treeFix10 : List Schema :=
  mkTree srcBdTNoStretch (mkSrcBdS []) (mkSrcEpgT []) mkSrcEpgS

/-- The resolve state `treeFix10` produces for `srcRow1`. -/
def rsFix10 : ResolveState := (resolveSchemas srcRow1 initResolveState treeFix10).1

/-- A tree whose stretched source BD has a `10.14` and a `10.20` subnet. -/
def treeFix5 : List Schema :=
  mkTree (mkSrcBdT (.vbool true) [mkSubnet "10.14.0.1", mkSubnet "10.20.0.1"])
    (mkSrcBdS []) (mkSrcEpgT []) mkSrcEpgS

/-- The resolve state `treeFix5` produces for `srcRow1`. -/
def rsFix5 : ResolveState := (resolveSchemas srcRow1 initResolveState treeFix5).1

/-- The map output of the `treeFix5` unit. -/
def mFix5 : MapOut :=
  (mapUnit initSkelState rsFix5 dstRow1).toOption.getD ⟨initSkelState, [], [], "", ""⟩

/-- C1: the mapped destination template EPG payload is supposed to attach a
consumer contract relationship built from the destination row's
`consContract`.  The code assembles that relationship (lines 962–964) but
never stores it in any payload, so the template-EPG add patch carries the
source EPG's `contractRelationships` (here `[]`) instead; the other
overrides (`bdRef`, `name`, `displayName`, `preferredGroup`) are applied as
claimed.  This theorem evaluates the mapping at the failing input. -/
theorem claim_C1_theorem :
    mapUnit initSkelState rsFix dstRow1 = .ok mFix ∧
    dstRow1.consContract = .vstr "/schemas/S2/templates/T2/contracts/CON1" ∧
    mFix.builtContracts =
      [.vdict [("contractRef", .vstr "/schemas/S2/templates/T2/contracts/CON1"),
               ("relationshipType", .vstr "consumer")]] ∧
    mFix.skel.epgT.get "contractRelationships" = some (.vlist []) ∧
    mFix.skel.epgT.get "bdRef" = some (.vstr "/schemas/S2/templates/T2/bds/WB-BD1") ∧
    mFix.skel.epgT.get "name" = some (.vstr "EPG2") ∧
    mFix.skel.epgT.get "displayName" = some (.vstr "EPG2") ∧
    mFix.skel.epgT.get "preferredGroup" = some (.vbool true) :=
  ⟨rfl, rfl, rfl, rfl, rfl, rfl, rfl, rfl⟩

/-- C2 counterexample: mapping a unit whose source template BD has no
`vmac` key mutates that source dict — `setdefault` inserts `vmac: ""` —
so the mapping is not mutation-free as claimed. -/
theorem claim_C2_counterexample :
    rsFix.bdT.get "vmac" = none ∧
    mapUnit initSkelState rsFix dstRow1 = .ok mFix ∧
    mFix.srcT.get "vmac" = some (.vstr "") ∧
    mFix.srcT ≠ rsFix.bdT :=
  ⟨rfl, rfl, rfl, by decide⟩

/-- C3 counterexample: a non-2xx response on the very first mutating call
(the destination template-BD add patch) does **not** stop the unit's
remaining phases — all fifteen remote calls are still issued and the unit
finishes as `completed` — while a non-2xx response on a deploy call kills
the **whole run** (uncaught `AttributeError` on the swallowed `None`),
so the loop does not continue with the next unit. -/
theorem claim_C3_counterexample :
    envPatchFail.outs 0 = .reqFail ∧
    (runMain envPatchFail treeFix [srcRow1] [dstRow1]).1.length = 15 ∧
    (runMain envPatchFail treeFix [srcRow1] [dstRow1]).2.1 = [.completed] ∧
    (runMain envPatchFail treeFix [srcRow1] [dstRow1]).2.2 = .finished ∧
    envDeployFail.outs 2 = .reqFail ∧
    (runMain envDeployFail treeFix [srcRow1, srcRow1] [dstRow1, dstRow1]).2.1 =
      [.crash .attributeError] ∧
    (runMain envDeployFail treeFix [srcRow1, srcRow1] [dstRow1, dstRow1]).2.2 =
      .crashed .attributeError :=
  ⟨rfl, rfl, rfl, rfl, rfl, rfl, rfl⟩

/-- C9 counterexample: a unit whose `schemaId` matches no schema raises no
`ResolutionError` at all — the resolve loops simply match nothing — and on
the first unit the leftover empty resolve dicts make the mapping raise an
uncaught `KeyError('l2Stretch')`, terminating the whole run before the
second unit, with no warning-and-skip. -/
theorem claim_C9_counterexample :
    resolveSchemas srcRowNoSchema initResolveState treeFix = (initResolveState, none) ∧
    (runMain envAllOk treeFix [srcRowNoSchema, srcRow1] [dstRow1, dstRow1]).1 = [] ∧
    (runMain envAllOk treeFix [srcRowNoSchema, srcRow1] [dstRow1, dstRow1]).2.1 =
      [.crash (.keyError "l2Stretch")] ∧
    (runMain envAllOk treeFix [srcRowNoSchema, srcRow1] [dstRow1, dstRow1]).2.2 =
      .crashed (.keyError "l2Stretch") :=
  ⟨rfl, rfl, rfl, rfl⟩

/-- C10 counterexample: when the resolved source template BD is missing the
`l2Stretch` key entirely, the mapping step does not proceed silently — the
`if src_bd_tmpl_data['l2Stretch'] is True` test raises `KeyError`, which is
not an `IndexError`, so the run dies before issuing any patch. -/
theorem claim_C10_counterexample :
    rsFix10.bdT.get "l2Stretch" = none ∧
    mapUnit initSkelState rsFix10 dstRow1 = .error (.keyError "l2Stretch") ∧
    (runMain envAllOk treeFix10 [srcRow1] [dstRow1]).1 = [] ∧
    (runMain envAllOk treeFix10 [srcRow1] [dstRow1]).2.2 =
      .crashed (.keyError "l2Stretch") :=
  ⟨rfl, rfl, rfl, rfl⟩

/-- C5 counterexample: the site-level `hostBasedRouting` flag is a single
field overwritten once per subnet, so with subnets
`[10.14.0.1, 10.20.0.1]` on a `WB-*` BD the final flag is `false` even
though the `10.14` subnet satisfies the claimed per-subnet rule — the
claim's "for each destination subnet" reading fails. -/
theorem claim_C5_counterexample :
    mapUnit initSkelState rsFix5 dstRow1 = .ok mFix5 ∧
    mFix5.skel.bdT.get "subnets" =
      some (.vlist [mkSubnet "10.14.0.1", mkSubnet "10.20.0.1"]) ∧
    dstRow1.bdName = "WB-BD1" ∧
    hbrMatches "10.14.0.1" "WB-BD1" = true ∧
    hbrMatches "10.20.0.1" "WB-BD1" = false ∧
    mFix5.skel.bdS.get "hostBasedRouting" = some (.vbool false) :=
  ⟨rfl, rfl, rfl, by decide, by decide, rfl⟩

/-- C4: the stretch rule of the BD mapping.  If the source template BD has
`l2Stretch = True`, the mapped destination template BD's subnets equal the
source template BD's subnets; if `l2Stretch = False`, the destination
template BD gets `arpFlood = intersiteBumTrafficAllow = l2Stretch =
optimizeWanBandwidth = True` and its subnets equal the source **site** BD's
subnets. -/
theorem claim_C4_theorem (sk : SkelState) (rs : ResolveState) (row : DstRow) (m : MapOut)
    (hm : mapUnit sk rs row = .ok m)
    (hkeys : sk.bdT.keysOf = ndo_bd_tmpl_dict.keysOf) :
    (rs.bdT.get "l2Stretch" = some (.vbool true) →
      m.skel.bdT.get "subnets" = rs.bdT.get "subnets") ∧
    (rs.bdT.get "l2Stretch" = some (.vbool false) →
      m.skel.bdT.get "arpFlood" = some (.vbool true) ∧
      m.skel.bdT.get "intersiteBumTrafficAllow" = some (.vbool true) ∧
      m.skel.bdT.get "l2Stretch" = some (.vbool true) ∧
      m.skel.bdT.get "optimizeWanBandwidth" = some (.vbool true) ∧
      m.skel.bdT.get "subnets" = rs.bdS.get "subnets") := by
  obtain ⟨bdT1, bdS1, srcT1, bdT2, bdS2, r, epgT2, epgS2, built, eRef,
    h1, h2, h3, hmEq⟩ := mapUnit_ok_inv hm
  subst hmEq
  obtain ⟨ss, d2, ha, hasub, hfold, hr, hb⟩ := bdRowStep_ok_inv h2
  have hbt2get : ∀ k : String, ¬ k = "name" → ¬ k = "displayName" → ¬ k = "vrfRef" →
      bdT2.get k = bdT1.get k := by
    intro k hk1 hk2 hk3
    rw [ha, Dict.get_set, if_neg (fun h => hk3 h.symm),
      Dict.get_set, if_neg (fun h => hk2 h.symm),
      Dict.get_set, if_neg (fun h => hk1 h.symm)]
  obtain ⟨v, hv, hcase⟩ := bdStretchStep_ok_inv h1
  constructor
  · intro hl
    have hveq : v = .vbool true := by
      rw [hv] at hl; exact (Option.some.injEq .. ▸ hl).symm ▸ rfl
    rcases hcase with ⟨_, dT, dS, hc1, hc2, hout⟩ | ⟨hfv, _⟩ | ⟨hnv, _, _⟩
    · have hbdT1 : bdT1 = dT := by
        have := hout; simp only [Prod.mk.injEq] at this; exact this.1
      have hmem : "subnets" ∈ sk.bdT.keysOf := by rw [hkeys]; decide
      have hget : dT.get "subnets" = (vmacDefault rs.bdT).get "subnets" :=
        copyKeys_get_mem hc1 hmem
      have hvm : (vmacDefault rs.bdT).get "subnets" = rs.bdT.get "subnets" :=
        Dict.get_setdefault_ne rs.bdT "vmac" "subnets" (.vstr "") (by decide)
      show bdT2.get "subnets" = rs.bdT.get "subnets"
      rw [hbt2get "subnets" (by decide) (by decide) (by decide), hbdT1, hget, hvm]
    · exact absurd hveq (hfv ▸ by decide)
    · exact absurd hveq hnv
  · intro hl
    have hveq : v = .vbool false := by
      rw [hv] at hl; exact (Option.some.injEq .. ▸ hl).symm ▸ rfl
    rcases hcase with ⟨htv, _⟩ | ⟨_, dT, dS, sn, hc1, hsn, hc2, hout⟩ | ⟨_, hnv, _⟩
    · exact absurd hveq (htv ▸ by decide)
    · have hbdT1 : bdT1 = ((((dT.set "arpFlood" (.vbool true)).set
          "intersiteBumTrafficAllow" (.vbool true)).set
          "l2Stretch" (.vbool true)).set
          "optimizeWanBandwidth" (.vbool true)).set "subnets" sn := by
        have := hout; simp only [Prod.mk.injEq] at this; exact this.1
      refine ⟨?_, ?_, ?_, ?_, ?_⟩ <;>
        rw [hbt2get _ (by decide) (by decide) (by decide), hbdT1]
      · rw [Dict.get_set, if_neg (by decide), Dict.get_set, if_neg (by decide),
          Dict.get_set, if_neg (by decide), Dict.get_set, if_neg (by decide),
          Dict.get_set, if_pos rfl]
      · rw [Dict.get_set, if_neg (by decide), Dict.get_set, if_neg (by decide),
          Dict.get_set, if_neg (by decide), Dict.get_set, if_pos rfl]
      · rw [Dict.get_set, if_neg (by decide), Dict.get_set, if_neg (by decide),
          Dict.get_set, if_pos rfl]
      · rw [Dict.get_set, if_neg (by decide), Dict.get_set, if_pos rfl]
      · rw [Dict.get_set, if_pos rfl, hsn]
    · exact absurd hveq hnv

/-- Witness for C4 (stretched case): the fixture unit's mapped BD keeps the
source template BD's subnets. -/
theorem claim_C4_witness :
    rsFix.bdT.get "l2Stretch" = some (.vbool true) ∧
    mFix.skel.bdT.get "subnets" = rsFix.bdT.get "subnets" :=
  ⟨rfl, (claim_C4_theorem initSkelState rsFix dstRow1 mFix rfl rfl).1 rfl⟩

/-- C5 (amended): the site-level `hostBasedRouting` flag is recomputed for
every destination subnet in order, each iteration overwriting the previous
value, so the mapped flag equals the verdict of the **last** subnet: `true`
iff its IP starts with `10.14` on a `WB-*` BD or with `10.17` on a `YK-*`
BD.  (For a singleton subnet list this coincides with the per-subnet
rule.) -/
theorem claim_C5_theorem (sk : SkelState) (rs : ResolveState) (row : DstRow)
    (m : MapOut) (ss : List Val) (sl : Val) (ip : String)
    (hm : mapUnit sk rs row = .ok m)
    (hsub : m.skel.bdT.get "subnets" = some (.vlist ss))
    (hlast : ss.getLast? = some sl) (hip : subnetIp sl = some ip) :
    m.skel.bdS.get "hostBasedRouting" = some (.vbool (hbrMatches ip row.bdName)) := by
  obtain ⟨bdT1, bdS1, srcT1, bdT2, bdS2, r, epgT2, epgS2, built, eRef,
    h1, h2, h3, hmEq⟩ := mapUnit_ok_inv hm
  subst hmEq
  obtain ⟨ss0, d2, ha, hasub, hfold, hr, hb⟩ := bdRowStep_ok_inv h2
  have hss : ss0 = ss := by
    rw [hsub] at hasub
    have h' := Option.some.injEq .. ▸ hasub
    exact (Val.vlist.injEq .. ▸ h').symm
  rw [hss] at hfold
  rcases hbrFold_char hfold
      ((bdS1.set "l3Outs" (.vlist [row.bdL3Out1, row.bdL3Out2])).set
        "l3OutRefs" (.vlist [row.bdL3OutRef1, row.bdL3OutRef2])) with
    ⟨hnil, _⟩ | ⟨sl2, ip2, hlast2, hip2, hfold2⟩
  · rw [hnil] at hlast; simp at hlast
  · have hsl : sl2 = sl := by
      rw [hlast] at hlast2; exact (Option.some.injEq .. ▸ hlast2).symm
    rw [hsl] at hip2
    have hipeq : ip2 = ip := by
      rw [hip] at hip2; exact (Option.some.injEq .. ▸ hip2).symm
    rw [hfold] at hfold2
    have hd2 := Except.ok.injEq .. ▸ hfold2
    show bdS2.get "hostBasedRouting" = _
    rw [hb, Dict.get_set, if_neg (by decide), hd2, Dict.get_set, if_pos rfl, hipeq]

/-- Witness for C5: on the two-subnet fixture the flag equals the last
subnet's verdict. -/
theorem claim_C5_witness :
    mFix5.skel.bdT.get "subnets" =
      some (.vlist [mkSubnet "10.14.0.1", mkSubnet "10.20.0.1"]) ∧
    mFix5.skel.bdS.get "hostBasedRouting" =
      some (.vbool (hbrMatches "10.20.0.1" dstRow1.bdName)) :=
  ⟨rfl, claim_C5_theorem initSkelState rsFix5 dstRow1 mFix5
    [mkSubnet "10.14.0.1", mkSubnet "10.20.0.1"] (mkSubnet "10.20.0.1") "10.20.0.1"
    rfl rfl rfl rfl⟩

/-- C9 (amended): only an `IndexError` during resolution is caught: such a
unit is skipped (no remote call is issued for it, the loop logs a warning)
and the run continues with the next unit carrying the partially-updated
resolve state.  A unit whose identifiers match no schema/template/site
raises no error at resolution at all — the stale previous resolve data is
silently kept (for the first unit the empty dicts then crash the run, see
the counterexample). -/
theorem claim_C9_theorem (env : Env) (n : Nat) (sk : SkelState)
    (rs0 rs1 : ResolveState) (tree : List Schema) (srow : SrcRow) (drow : DstRow)
    (rest : List (SrcRow × DstRow))
    (hres : resolveSchemas srow rs0 tree = (rs1, some .indexError)) :
    runUnit env n sk rs0 tree srow drow = ([], sk, rs1, .skippedIndex, n) ∧
    runUnits env n sk rs0 tree ((srow, drow) :: rest) =
      ((runUnits env n sk rs1 tree rest).1,
       .skippedIndex :: (runUnits env n sk rs1 tree rest).2.1,
       (runUnits env n sk rs1 tree rest).2.2) := by
  have h1 : runUnit env n sk rs0 tree srow drow = ([], sk, rs1, .skippedIndex, n) := by
    unfold runUnit
    rw [hres]
  refine ⟨h1, ?_⟩
  simp only [runUnits, h1, List.nil_append]

/-- Witness for C9: an out-of-range BD index is skipped and the following
unit still completes. -/
theorem claim_C9_witness :
    resolveSchemas srcRowBadIdx initResolveState treeFix =
      ((resolveSchemas srcRowBadIdx initResolveState treeFix).1, some .indexError) ∧
    runUnits envAllOk 0 initSkelState initResolveState treeFix
        [(srcRowBadIdx, dstRow1), (srcRow1, dstRow1)] =
      ((runUnits envAllOk 0 initSkelState
          (resolveSchemas srcRowBadIdx initResolveState treeFix).1 treeFix
          [(srcRow1, dstRow1)]).1,
       .skippedIndex :: (runUnits envAllOk 0 initSkelState
          (resolveSchemas srcRowBadIdx initResolveState treeFix).1 treeFix
          [(srcRow1, dstRow1)]).2.1,
       (runUnits envAllOk 0 initSkelState
          (resolveSchemas srcRowBadIdx initResolveState treeFix).1 treeFix
          [(srcRow1, dstRow1)]).2.2) :=
  ⟨rfl, (claim_C9_theorem envAllOk 0 initSkelState initResolveState
    (resolveSchemas srcRowBadIdx initResolveState treeFix).1 treeFix
    srcRowBadIdx dstRow1 [(srcRow1, dstRow1)] rfl).2⟩

/-- C10 (amended): when the source template BD's `l2Stretch` is **present**
but neither exactly `True` nor exactly `False`, the stretch step copies no
field from the source BD: every destination template-BD field other than
the destination-row overrides (`name`, `displayName`, `vrfRef`) keeps its
prior skeleton value, every site-BD field other than `l3Outs`, `l3OutRefs`,
`hostBasedRouting`, `bdRef` keeps its prior value, the source BD is not
even vMAC-defaulted, and (given resolution succeeded) the orchestrator
still issues the BD patches with those payloads.  (A **missing**
`l2Stretch` key instead raises `KeyError`, see the counterexample.) -/
theorem claim_C10_theorem (sk : SkelState) (rs : ResolveState) (row : DstRow)
    (m : MapOut) (v : Val)
    (hm : mapUnit sk rs row = .ok m)
    (hv : rs.bdT.get "l2Stretch" = some v)
    (hvt : ¬ v = .vbool true) (hvf : ¬ v = .vbool false) :
    (∀ k : String, ¬ k = "name" → ¬ k = "displayName" → ¬ k = "vrfRef" →
      m.skel.bdT.get k = sk.bdT.get k) ∧
    (∀ k : String, ¬ k = "l3Outs" → ¬ k = "l3OutRefs" →
      ¬ k = "hostBasedRouting" → ¬ k = "bdRef" →
      m.skel.bdS.get k = sk.bdS.get k) ∧
    m.srcT = rs.bdT ∧
    (∀ (env : Env) (n : Nat) (tree : List Schema) (srow : SrcRow),
      resolveSchemas srow rs tree = (rs, none) →
      (runUnit env n sk rs tree srow row).1.take 2 =
        [.patchTmplBD "add" (.vstr m.dstBdRef) m.skel.bdT,
         .patchSiteBD "replace" row.siteId m.skel.bdS]) := by
  obtain ⟨bdT1, bdS1, srcT1, bdT2, bdS2, r, epgT2, epgS2, built, eRef,
    h1, h2, h3, hmEq⟩ := mapUnit_ok_inv hm
  obtain ⟨v2, hv2, hcase⟩ := bdStretchStep_ok_inv h1
  have hvv : v2 = v := by
    rw [hv] at hv2; exact (Option.some.injEq .. ▸ hv2).symm
  subst hvv
  rcases hcase with ⟨htv, _⟩ | ⟨hfv, _⟩ | ⟨_, _, hout⟩
  · exact absurd htv hvt
  · exact absurd hfv hvf
  have hbdT1 : bdT1 = sk.bdT := by
    have := hout; simp only [Prod.mk.injEq] at this; exact this.1
  have hbdS1 : bdS1 = sk.bdS := by
    have := hout; simp only [Prod.mk.injEq] at this; exact this.2.1
  have hsrcT1 : srcT1 = rs.bdT := by
    have := hout; simp only [Prod.mk.injEq] at this; exact this.2.2
  obtain ⟨ss, d2, ha, hasub, hfold, hr, hb⟩ := bdRowStep_ok_inv h2
  refine ⟨?_, ?_, ?_, ?_⟩
  · intro k hk1 hk2 hk3
    rw [hmEq]
    show bdT2.get k = sk.bdT.get k
    rw [ha, Dict.get_set, if_neg (fun h => hk3 h.symm),
      Dict.get_set, if_neg (fun h => hk2 h.symm),
      Dict.get_set, if_neg (fun h => hk1 h.symm), hbdT1]
  · intro k hk1 hk2 hk3 hk4
    rw [hmEq]
    show bdS2.get k = sk.bdS.get k
    have hd2k : d2.get k = sk.bdS.get k := by
      rcases hbrFold_char hfold
          ((bdS1.set "l3Outs" (.vlist [row.bdL3Out1, row.bdL3Out2])).set
            "l3OutRefs" (.vlist [row.bdL3OutRef1, row.bdL3OutRef2])) with
        ⟨hnil, hfold2⟩ | ⟨sl2, ip2, _, _, hfold2⟩
      · rw [hfold] at hfold2
        have hd2 := Except.ok.injEq .. ▸ hfold2
        rw [hd2, Dict.get_set, if_neg (fun h => hk2 h.symm),
          Dict.get_set, if_neg (fun h => hk1 h.symm), hbdS1]
      · rw [hfold] at hfold2
        have hd2 := Except.ok.injEq .. ▸ hfold2
        rw [hd2, Dict.get_set, if_neg (fun h => hk3 h.symm),
          Dict.get_set, if_neg (fun h => hk2 h.symm),
          Dict.get_set, if_neg (fun h => hk1 h.symm), hbdS1]
    rw [hb, Dict.get_set, if_neg (fun h => hk4 h.symm), hd2k]
  · rw [hmEq]
    exact hsrcT1
  · intro env n tree srow hres
    unfold runUnit
    rw [hres]
    dsimp only
    rw [hm]
    dsimp only
    cases envOut : env.outs (n + 2) with
    | reqFail => rfl
    | deployError => rfl
    | ok =>
      cases hgb : rs.bdS.get "bdRef" with
      | none => rfl
      | some sb =>
        cases hge : rs.epgS.get "epgRef" with
        | none => rfl
        | some se =>
          cases o7 : env.outs (n + 7) with
          | reqFail => rfl
          | deployError => rfl
          | ok =>
            cases o9 : env.outs (n + 9) with
            | reqFail => rfl
            | deployError => rfl
            | ok => cases o13 : env.outs (n + 13) <;> rfl

/-- A tree whose source BD has `l2Stretch = None` (present, not a bool). -/
def treeFix10b : List Schema :=
  mkTree (mkSrcBdT .vnone []) (mkSrcBdS []) (mkSrcEpgT []) mkSrcEpgS

/-- The resolve state `treeFix10b` produces for `srcRow1`. -/
def rsFix10b : ResolveState := (resolveSchemas srcRow1 initResolveState treeFix10b).1

/-- The map output of the `treeFix10b` unit. -/
def mFix10b : MapOut :=
  (mapUnit initSkelState rsFix10b dstRow1).toOption.getD ⟨initSkelState, [], [], "", ""⟩

/-- Witness for C10 at `l2Stretch = None`. -/
theorem claim_C10_witness :
    rsFix10b.bdT.get "l2Stretch" = some .vnone ∧
    mFix10b.skel.bdT.get "arpFlood" = initSkelState.bdT.get "arpFlood" ∧
    mFix10b.srcT = rsFix10b.bdT ∧
    (runUnit envAllOk 0 initSkelState rsFix10b treeFix10b srcRow1 dstRow1).1.take 2 =
      [.patchTmplBD "add" (.vstr mFix10b.dstBdRef) mFix10b.skel.bdT,
       .patchSiteBD "replace" dstRow1.siteId mFix10b.skel.bdS] := by
  have h := claim_C10_theorem initSkelState rsFix10b dstRow1 mFix10b .vnone rfl rfl
    (by decide) (by decide)
  exact ⟨rfl, h.1 "arpFlood" (by decide) (by decide) (by decide),
    h.2.2.1, h.2.2.2 envAllOk 0 treeFix10b srcRow1 rfl⟩

/-- Helper: the full fifteen-call trace of a unit whose resolution and
mapping succeed, whose source references are present and whose deploy calls
all return 2xx (patch and status outcomes are unconstrained). -/
theorem runUnit_all_ok (env : Env) (n : Nat) (sk : SkelState)
    (rs0 rs1 : ResolveState) (tree : List Schema) (srow : SrcRow) (drow : DstRow)
    (m : MapOut) (sb se : Val)
    (hres : resolveSchemas srow rs0 tree = (rs1, none))
    (hmap : mapUnit sk rs1 drow = .ok m)
    (hsb : rs1.bdS.get "bdRef" = some sb)
    (hse : rs1.epgS.get "epgRef" = some se)
    (h2 : env.outs (n + 2) = .ok) (h7 : env.outs (n + 7) = .ok)
    (h9 : env.outs (n + 9) = .ok) (h13 : env.outs (n + 13) = .ok) :
    (runUnit env n sk rs0 tree srow drow).1 =
      [.patchTmplBD "add" (.vstr m.dstBdRef) m.skel.bdT,
       .patchSiteBD "replace" drow.siteId m.skel.bdS,
       .deploy drow.schemaId drow.templName,
       .statusGet (env.deployId (n + 2)),
       .patchTmplEPG "add" (.vstr m.dstEpgRef) m.skel.epgT,
       .patchSiteEPG "replace" drow.siteId m.skel.epgS,
       .patchStaticPorts srow.siteId [],
       .deploy srow.schemaId srow.templName,
       .statusGet (env.deployId (n + 7)),
       .deploy drow.schemaId drow.templName,
       .statusGet (env.deployId (n + 9)),
       .patchTmplEPG "remove" se rs1.epgT,
       .patchTmplBD "remove" sb m.srcT,
       .deploy srow.schemaId srow.templName,
       .statusGet (env.deployId (n + 13))] ∧
    (runUnit env n sk rs0 tree srow drow).2.2.2.1 = .completed := by
  unfold runUnit
  rw [hres]
  dsimp only
  rw [hmap]
  dsimp only
  rw [h2]
  dsimp only
  rw [hsb]
  dsimp only
  rw [hse]
  dsimp only
  rw [h7]
  dsimp only
  rw [h9]
  dsimp only
  rw [h13]
  exact ⟨rfl, rfl⟩

/-- C6: phase ordering inside one successfully progressing unit.  Under the
hypotheses that resolution and mapping succeed, the source references are
present and every deploy call returns 2xx, the unit's remote-call trace is
exactly the fifteen calls listed, in order: the destination BD template
patch, site patch, deploy and status poll (awaiting `Complete`) all precede
the destination template-EPG add patch (positions 0–3 before 4), and during
decommission the source template-EPG remove patch (position 11) precedes
the source template-BD remove patch (position 12). -/
theorem claim_C6_theorem (env : Env) (n : Nat) (sk : SkelState)
    (rs0 rs1 : ResolveState) (tree : List Schema) (srow : SrcRow) (drow : DstRow)
    (m : MapOut) (sb se : Val)
    (hres : resolveSchemas srow rs0 tree = (rs1, none))
    (hmap : mapUnit sk rs1 drow = .ok m)
    (hsb : rs1.bdS.get "bdRef" = some sb)
    (hse : rs1.epgS.get "epgRef" = some se)
    (h2 : env.outs (n + 2) = .ok) (h7 : env.outs (n + 7) = .ok)
    (h9 : env.outs (n + 9) = .ok) (h13 : env.outs (n + 13) = .ok) :
    (runUnit env n sk rs0 tree srow drow).1 =
      [.patchTmplBD "add" (.vstr m.dstBdRef) m.skel.bdT,
       .patchSiteBD "replace" drow.siteId m.skel.bdS,
       .deploy drow.schemaId drow.templName,
       .statusGet (env.deployId (n + 2)),
       .patchTmplEPG "add" (.vstr m.dstEpgRef) m.skel.epgT,
       .patchSiteEPG "replace" drow.siteId m.skel.epgS,
       .patchStaticPorts srow.siteId [],
       .deploy srow.schemaId srow.templName,
       .statusGet (env.deployId (n + 7)),
       .deploy drow.schemaId drow.templName,
       .statusGet (env.deployId (n + 9)),
       .patchTmplEPG "remove" se rs1.epgT,
       .patchTmplBD "remove" sb m.srcT,
       .deploy srow.schemaId srow.templName,
       .statusGet (env.deployId (n + 13))] ∧
    (runUnit env n sk rs0 tree srow drow).2.2.2.1 = .completed :=
  runUnit_all_ok env n sk rs0 rs1 tree srow drow m sb se
    hres hmap hsb hse h2 h7 h9 h13

/-- Witness for C6 on the fixture unit with every remote call succeeding. -/
theorem claim_C6_witness :
    (runUnit envAllOk 0 initSkelState initResolveState treeFix srcRow1 dstRow1).1 =
      [.patchTmplBD "add" (.vstr mFix.dstBdRef) mFix.skel.bdT,
       .patchSiteBD "replace" dstRow1.siteId mFix.skel.bdS,
       .deploy dstRow1.schemaId dstRow1.templName,
       .statusGet (envAllOk.deployId 2),
       .patchTmplEPG "add" (.vstr mFix.dstEpgRef) mFix.skel.epgT,
       .patchSiteEPG "replace" dstRow1.siteId mFix.skel.epgS,
       .patchStaticPorts srcRow1.siteId [],
       .deploy srcRow1.schemaId srcRow1.templName,
       .statusGet (envAllOk.deployId 7),
       .deploy dstRow1.schemaId dstRow1.templName,
       .statusGet (envAllOk.deployId 9),
       .patchTmplEPG "remove" (.vstr "/schemas/S1/templates/T1/anps/ANP1/epgs/EPG1") rsFix.epgT,
       .patchTmplBD "remove" (.vstr "/schemas/S1/templates/T1/bds/BD1") mFix.srcT,
       .deploy srcRow1.schemaId srcRow1.templName,
       .statusGet (envAllOk.deployId 13)] ∧
    (runUnit envAllOk 0 initSkelState initResolveState treeFix srcRow1 dstRow1).2.2.2.1 =
      .completed :=
  claim_C6_theorem envAllOk 0 initSkelState initResolveState rsFix treeFix
    srcRow1 dstRow1 mFix
    (.vstr "/schemas/S1/templates/T1/bds/BD1")
    (.vstr "/schemas/S1/templates/T1/anps/ANP1/epgs/EPG1")
    rfl rfl rfl rfl rfl rfl rfl rfl

/-- C3 (amended): failures of remote calls are `RequestException`s that the
`request_logger` decorator catches and logs, returning `None`.  `main`
ignores the return value of every patch and status-check call, so their
failures never stop the unit — a unit whose deploys all return 2xx finishes
`completed` no matter what the patch and status calls returned.  The return
value of a deploy call **is** used (`deploy.json()['id']`), so a non-2xx
deploy surfaces as an uncaught `AttributeError` on `None`, which — not
being an `IndexError` — terminates the entire run: no later unit is
processed.  Only `IndexError` is caught at the per-unit level. -/
theorem claim_C3_theorem (env : Env) (n : Nat) (sk : SkelState)
    (rs0 rs1 : ResolveState) (tree : List Schema) (srow : SrcRow) (drow : DstRow)
    (rest : List (SrcRow × DstRow)) (m : MapOut) (sb se : Val)
    (hres : resolveSchemas srow rs0 tree = (rs1, none))
    (hmap : mapUnit sk rs1 drow = .ok m)
    (hsb : rs1.bdS.get "bdRef" = some sb)
    (hse : rs1.epgS.get "epgRef" = some se) :
    ((env.outs (n + 2) = .ok ∧ env.outs (n + 7) = .ok ∧
      env.outs (n + 9) = .ok ∧ env.outs (n + 13) = .ok) →
      (runUnit env n sk rs0 tree srow drow).2.2.2.1 = .completed) ∧
    (¬ env.outs (n + 2) = .ok →
      (runUnit env n sk rs0 tree srow drow).2.2.2.1 = .crash .attributeError ∧
      runUnits env n sk rs0 tree ((srow, drow) :: rest) =
        ((runUnit env n sk rs0 tree srow drow).1,
         [.crash .attributeError], some .attributeError)) := by
  constructor
  · intro ⟨h2, h7, h9, h13⟩
    exact (runUnit_all_ok env n sk rs0 rs1 tree srow drow m sb se
      hres hmap hsb hse h2 h7 h9 h13).2
  · intro h2
    have hu : runUnit env n sk rs0 tree srow drow =
        ([.patchTmplBD "add" (.vstr m.dstBdRef) m.skel.bdT,
          .patchSiteBD "replace" drow.siteId m.skel.bdS,
          .deploy drow.schemaId drow.templName],
         m.skel, ⟨m.srcT, rs1.bdS, rs1.epgT, rs1.epgS⟩,
         .crash .attributeError, n + 3) := by
      unfold runUnit
      rw [hres]
      dsimp only
      rw [hmap]
      dsimp only
      cases ho : env.outs (n + 2) with
      | ok => exact absurd ho h2
      | reqFail => rfl
      | deployError => rfl
    refine ⟨by rw [hu], ?_⟩
    simp only [runUnits, hu]

/-- Witness for C3: with the first patch failing the unit still completes;
with the first deploy failing the whole two-unit run dies. -/
theorem claim_C3_witness :
    (runUnit envPatchFail 0 initSkelState initResolveState treeFix srcRow1 dstRow1).2.2.2.1 =
      .completed ∧
    (runUnit envDeployFail 0 initSkelState initResolveState treeFix srcRow1 dstRow1).2.2.2.1 =
      .crash .attributeError ∧
    runUnits envDeployFail 0 initSkelState initResolveState treeFix
        [(srcRow1, dstRow1), (srcRow1, dstRow1)] =
      ((runUnit envDeployFail 0 initSkelState initResolveState treeFix srcRow1 dstRow1).1,
       [.crash .attributeError], some .attributeError) := by
  have h1 := claim_C3_theorem envPatchFail 0 initSkelState initResolveState rsFix treeFix
    srcRow1 dstRow1 [] mFix (.vstr "/schemas/S1/templates/T1/bds/BD1")
    (.vstr "/schemas/S1/templates/T1/anps/ANP1/epgs/EPG1") rfl rfl rfl rfl
  have h2 := claim_C3_theorem envDeployFail 0 initSkelState initResolveState rsFix treeFix
    srcRow1 dstRow1 [(srcRow1, dstRow1)] mFix (.vstr "/schemas/S1/templates/T1/bds/BD1")
    (.vstr "/schemas/S1/templates/T1/anps/ANP1/epgs/EPG1") rfl rfl rfl rfl
  exact ⟨h1.1 ⟨rfl, rfl, rfl, rfl⟩, (h2.2 (by decide)).1, (h2.2 (by decide)).2⟩

/-! ## Re-running the mapper on its own output (for the aliasing claim) -/

/-- A successful copy loop only depends on the destination's key list, so it
can be replayed from any dict with the same keys. -/
theorem copyFrom_rerun {d s d' e : Dict} (h : copyFrom d s = .ok d')
    (hk : e.keysOf = d.keysOf) (hnd : d.keysOf.Nodup) : copyFrom e s = .ok d' := by
  have hpres : ∀ k ∈ d.keysOf, (s.get k).isSome := copyKeys_ok_present h
  have h1 : copyFrom d s = .ok (mapVals s d) := copyFrom_eq_mapVals d hnd hpres
  have h2 : copyFrom e s = .ok (mapVals s e) :=
    copyFrom_eq_mapVals e (by rw [hk]; exact hnd) (by rw [hk]; exact hpres)
  rw [h2, mapVals_keys_congr hk, ← h1, h]

/-- `vmacDefault` is idempotent. -/
theorem vmacDefault_idem (d : Dict) : vmacDefault (vmacDefault d) = vmacDefault d :=
  Dict.setdefault_idem d "vmac" (.vstr "")

/-- Replaying the EPG mapping from any dicts with the skeletons' key lists
reproduces its output. -/
theorem epgStep_rerun {dstET dstES srcET srcES : Dict} {row : DstRow} {r : String}
    {out : Dict × Dict × List Val × String}
    (h : epgStep dstET dstES srcET srcES row r = .ok out)
    (E S : Dict) (hkE : E.keysOf = dstET.keysOf) (hkS : S.keysOf = dstES.keysOf)
    (hndE : dstET.keysOf.Nodup) (hndS : dstES.keysOf.Nodup) :
    epgStep E S srcET srcES row r = .ok out := by
  obtain ⟨eT, eS, hc1, hc2, hout⟩ := epgStep_ok_inv h
  unfold epgStep
  rw [copyFrom_rerun hc1 hkE hndE]
  dsimp only
  rw [copyFrom_rerun hc2 hkS hndS]
  dsimp only
  rw [hout]

/-- Replaying the stretch step (either boolean branch) from any dicts with
the skeletons' key lists, and from the already-vMAC-defaulted source,
reproduces its output. -/
theorem bdStretchStep_rerun_bool {dstT dstS srcT srcS : Dict} {out : Dict × Dict × Dict}
    {b : Bool} (h : bdStretchStep dstT dstS srcT srcS = .ok out)
    (hv : srcT.get "l2Stretch" = some (.vbool b))
    (T S : Dict) (hkT : T.keysOf = dstT.keysOf) (hkS : S.keysOf = dstS.keysOf)
    (hndT : dstT.keysOf.Nodup) (hndS : dstS.keysOf.Nodup) :
    bdStretchStep T S out.2.2 srcS = .ok out := by
  obtain ⟨v, hv2, hcase⟩ := bdStretchStep_ok_inv h
  have hveq : v = .vbool b := by
    rw [hv] at hv2; exact (Option.some.injEq .. ▸ hv2).symm
  subst hveq
  have hvstretch : (vmacDefault srcT).get "l2Stretch" = some (.vbool b) := by
    unfold vmacDefault
    rw [Dict.get_setdefault_ne srcT "vmac" "l2Stretch" (.vstr "") (by decide)]
    exact hv
  cases b with
  | true =>
    rcases hcase with ⟨_, dT, dS, hc1, hc2, hout⟩ | ⟨hfv, _⟩ | ⟨hnv, _, _⟩
    · subst hout
      unfold bdStretchStep
      rw [hvstretch]
      dsimp only
      rw [if_pos rfl, vmacDefault_idem]
      rw [copyFrom_rerun hc1 hkT hndT]
      dsimp only
      rw [copyFrom_rerun hc2 hkS hndS]
    · exact absurd hfv (by decide)
    · exact absurd rfl hnv
  | false =>
    rcases hcase with ⟨htv, _⟩ | ⟨_, dT, dS, sn, hc1, hsn, hc2, hout⟩ | ⟨_, hnv, _⟩
    · exact absurd htv (by decide)
    · subst hout
      unfold bdStretchStep
      rw [hvstretch]
      dsimp only
      rw [if_neg (by decide), if_pos rfl, vmacDefault_idem]
      rw [copyFrom_rerun hc1 hkT hndT]
      dsimp only
      rw [hsn]
      dsimp only
      rw [copyFrom_rerun hc2 hkS hndS]
    · exact absurd rfl hnv

/-- The destination-row BD step is idempotent on its own output. -/
theorem bdRowStep_idem {dstT dstS : Dict} {row : DstRow} {a b : Dict} {r : String}
    (h : bdRowStep dstT dstS row = .ok (a, b, r)) :
    bdRowStep a b row = .ok (a, b, r) := by
  obtain ⟨ss, d2, ha, hasub, hfold, hr, hb⟩ := bdRowStep_ok_inv h
  have hgname : a.get "name" = some (.vstr row.bdName) := by
    rw [ha, Dict.get_set, if_neg (by decide), Dict.get_set, if_neg (by decide),
      Dict.get_set, if_pos rfl]
  have hgdn : a.get "displayName" = some (.vstr row.bdName) := by
    rw [ha, Dict.get_set, if_neg (by decide), Dict.get_set, if_pos rfl]
  have hgvr : a.get "vrfRef" = some row.vrfRef := by
    rw [ha, Dict.get_set, if_pos rfl]
  have hTidem : ((a.set "name" (.vstr row.bdName)).set
      "displayName" (.vstr row.bdName)).set "vrfRef" row.vrfRef = a := by
    rw [Dict.set_get_self a _ _ hgname, Dict.set_get_self a _ _ hgdn,
      Dict.set_get_self a _ _ hgvr]
  have hgl3 : b.get "l3Outs" = some (.vlist [row.bdL3Out1, row.bdL3Out2]) := by
    rcases hbrFold_char hfold
        ((dstS.set "l3Outs" (.vlist [row.bdL3Out1, row.bdL3Out2])).set
          "l3OutRefs" (.vlist [row.bdL3OutRef1, row.bdL3OutRef2])) with
      ⟨_, hfold2⟩ | ⟨sl2, ip2, _, _, hfold2⟩ <;>
      rw [hfold] at hfold2 <;>
      have hd2 := Except.ok.injEq .. ▸ hfold2
    · rw [hb, Dict.get_set, if_neg (by decide), hd2, Dict.get_set, if_neg (by decide),
        Dict.get_set, if_pos rfl]
    · rw [hb, Dict.get_set, if_neg (by decide), hd2, Dict.get_set, if_neg (by decide),
        Dict.get_set, if_neg (by decide), Dict.get_set, if_pos rfl]
  have hgl3r : b.get "l3OutRefs" = some (.vlist [row.bdL3OutRef1, row.bdL3OutRef2]) := by
    rcases hbrFold_char hfold
        ((dstS.set "l3Outs" (.vlist [row.bdL3Out1, row.bdL3Out2])).set
          "l3OutRefs" (.vlist [row.bdL3OutRef1, row.bdL3OutRef2])) with
      ⟨_, hfold2⟩ | ⟨sl2, ip2, _, _, hfold2⟩ <;>
      rw [hfold] at hfold2 <;>
      have hd2 := Except.ok.injEq .. ▸ hfold2
    · rw [hb, Dict.get_set, if_neg (by decide), hd2, Dict.get_set, if_pos rfl]
    · rw [hb, Dict.get_set, if_neg (by decide), hd2, Dict.get_set, if_neg (by decide),
        Dict.get_set, if_pos rfl]
  have hSidem : (b.set "l3Outs" (.vlist [row.bdL3Out1, row.bdL3Out2])).set
      "l3OutRefs" (.vlist [row.bdL3OutRef1, row.bdL3OutRef2]) = b := by
    rw [Dict.set_get_self b _ _ hgl3, Dict.set_get_self b _ _ hgl3r]
  have hgbr : b.get "bdRef" = some (.vstr r) := by
    rw [hb, Dict.get_set, if_pos rfl]
  unfold bdRowStep
  rw [hTidem, hasub]
  dsimp only
  rw [hSidem]
  rcases hbrFold_char hfold b with ⟨hnil, hfoldB⟩ | ⟨slB, ipB, hlastB, hipB, hfoldB⟩
  · rw [hfoldB]
    dsimp only
    rw [← hr, Dict.set_get_self b _ _ hgbr]
  · have hghbr : b.get "hostBasedRouting" = some (.vbool (hbrMatches ipB row.bdName)) := by
      rcases hbrFold_char hfold
          ((dstS.set "l3Outs" (.vlist [row.bdL3Out1, row.bdL3Out2])).set
            "l3OutRefs" (.vlist [row.bdL3OutRef1, row.bdL3OutRef2])) with
        ⟨hnilA, _⟩ | ⟨slA, ipA, hlastA, hipA, hfoldA⟩
      · rw [hnilA] at hlastB; simp at hlastB
      · have hsl : slA = slB := by
          rw [hlastB] at hlastA
          injection hlastA with h'
          exact h'.symm
        rw [hsl] at hipA
        have hipeq : ipA = ipB := by
          rw [hipB] at hipA
          injection hipA with h'
          exact h'.symm
        rw [hfold] at hfoldA
        have hd2 := Except.ok.injEq .. ▸ hfoldA
        rw [hb, Dict.get_set, if_neg (by decide), hd2, Dict.get_set, if_pos rfl, hipeq]
    rw [hfoldB]
    dsimp only
    rw [Dict.set_get_self b _ _ hghbr, ← hr, Dict.set_get_self b _ _ hgbr]

/-- C2 (amended): the mapper is deterministic on its outputs but neither
copy-free nor mutation-free.  Invoking it a second time on the same source
objects and destination row — which, because the destination payloads alias
the module-level skeleton dicts and the source BD was possibly
vMAC-defaulted in place, means starting from the first invocation's output
skeletons and mutated source — reproduces the first invocation's payloads
field for field. -/
theorem claim_C2_theorem (sk : SkelState) (rs : ResolveState) (row : DstRow)
    (m : MapOut) (hm : mapUnit sk rs row = .ok m)
    (hk1 : sk.bdT.keysOf = ndo_bd_tmpl_dict.keysOf)
    (hk2 : sk.bdS.keysOf = ndo_bd_site_dict.keysOf)
    (hk3 : sk.epgT.keysOf = ndo_epg_tmpl_dict.keysOf)
    (hk4 : sk.epgS.keysOf = ndo_epg_site_dict.keysOf)
    (hk5 : m.skel.bdT.keysOf = ndo_bd_tmpl_dict.keysOf)
    (hk6 : m.skel.bdS.keysOf = ndo_bd_site_dict.keysOf)
    (hk7 : m.skel.epgT.keysOf = ndo_epg_tmpl_dict.keysOf)
    (hk8 : m.skel.epgS.keysOf = ndo_epg_site_dict.keysOf) :
    mapUnit m.skel { rs with bdT := m.srcT } row = .ok m := by
  obtain ⟨bdT1, bdS1, srcT1, bdT2, bdS2, r, epgT2, epgS2, built, eRef,
    h1, h2, h3, hmEq⟩ := mapUnit_ok_inv hm
  subst hmEq
  dsimp only at hk5 hk6 hk7 hk8 ⊢
  have hndT : sk.bdT.keysOf.Nodup := by rw [hk1]; decide
  have hndS : sk.bdS.keysOf.Nodup := by rw [hk2]; decide
  have hndE : sk.epgT.keysOf.Nodup := by rw [hk3]; decide
  have hndF : sk.epgS.keysOf.Nodup := by rw [hk4]; decide
  have h3' : epgStep epgT2 epgS2 rs.epgT rs.epgS row r = .ok (epgT2, epgS2, built, eRef) :=
    epgStep_rerun h3 epgT2 epgS2 (hk7.trans hk3.symm) (hk8.trans hk4.symm) hndE hndF
  obtain ⟨v, hv, hcase⟩ := bdStretchStep_ok_inv h1
  by_cases hvt : v = .vbool true
  · rw [hvt] at hv
    have hstep2 : bdStretchStep bdT2 bdS2 srcT1 rs.bdS = .ok (bdT1, bdS1, srcT1) :=
      bdStretchStep_rerun_bool h1 hv bdT2 bdS2
        (hk5.trans hk1.symm) (hk6.trans hk2.symm) hndT hndS
    unfold mapUnit
    dsimp only
    rw [hstep2]
    dsimp only
    rw [h2]
    dsimp only
    rw [h3']
  · by_cases hvf : v = .vbool false
    · rw [hvf] at hv
      have hstep2 : bdStretchStep bdT2 bdS2 srcT1 rs.bdS = .ok (bdT1, bdS1, srcT1) :=
        bdStretchStep_rerun_bool h1 hv bdT2 bdS2
          (hk5.trans hk1.symm) (hk6.trans hk2.symm) hndT hndS
      unfold mapUnit
      dsimp only
      rw [hstep2]
      dsimp only
      rw [h2]
      dsimp only
      rw [h3']
    · rcases hcase with ⟨htv, _⟩ | ⟨hfv, _⟩ | ⟨_, _, hout⟩
      · exact absurd htv hvt
      · exact absurd hfv hvf
      · have hbdT1 : bdT1 = sk.bdT := by
          have := hout; simp only [Prod.mk.injEq] at this; exact this.1
        have hbdS1 : bdS1 = sk.bdS := by
          have := hout; simp only [Prod.mk.injEq] at this; exact this.2.1
        have hsrcT1 : srcT1 = rs.bdT := by
          have := hout; simp only [Prod.mk.injEq] at this; exact this.2.2
        rw [hbdT1, hbdS1] at h2
        have hidem := bdRowStep_idem h2
        have hstep2 : bdStretchStep bdT2 bdS2 srcT1 rs.bdS = .ok (bdT2, bdS2, srcT1) := by
          rw [hsrcT1]
          unfold bdStretchStep
          rw [hv]
          dsimp only
          rw [if_neg hvt, if_neg hvf]
        unfold mapUnit
        dsimp only
        rw [hstep2]
        dsimp only
        rw [hidem]
        dsimp only
        rw [h3']

/-- Witness for C2 (amended): on the fixture unit the second invocation
reproduces the first's payloads exactly. -/
theorem claim_C2_witness :
    mapUnit initSkelState rsFix dstRow1 = .ok mFix ∧
    mapUnit mFix.skel { rsFix with bdT := mFix.srcT } dstRow1 = .ok mFix :=
  ⟨rfl, claim_C2_theorem initSkelState rsFix dstRow1 mFix rfl
    rfl rfl rfl rfl rfl rfl rfl rfl⟩

end NdoEpgMigration

